import Mathlib

/-!
# MIRTK: adaptive local remeshing (`mirtk::PolyDataRemeshing`) and its neighbours

Shallow embedding of `Modules/PointSet/include/mirtk/PolyDataRemeshing.h`.

The header holds the attributes of the filter and the inline definitions of
`NumberOfMeltings`, `NumberOfSubdivisions` and `NumberOfChanges`; these are
embedded from the source.  The bodies of the remeshing passes live in
`PolyDataRemeshing.cc`, which is not among the source files: definitions that
stand for them are marked `Modelled from the spec:`.

Embedded from their sources as well:
`Modules/Registration/src/RegistrationEnergy.cc` (`Initialize`, `Update`,
`Gradient`, `Value`, `NumberOfActiveTerms`), `Modules/Image/include/mirtk/DataOp.h` (`Op::Process` and the
`Calculate` members), `Applications/src/close-image.cc` (`Close`) and
`Modules/Transformation/include/mirtk/BSplineFreeFormTransformation3D.h`
(`EvaluateDerivativeOfJacobianWrtDOF`).  A callee whose class is not among the
sources is a parameter of the function that calls it.
-/

namespace mirtk

/-! ## Machine integers (`int`, 32 bit two's complement) -/

/-- Smallest value of a C++ `int`. -/
def INT_MIN : Int := -2147483648

/-- Largest value of a C++ `int`. -/
def INT_MAX : Int := 2147483647

/-- Reduction of a mathematical integer to the 32 bit two's complement range. -/
def wrapInt (x : Int) : Int := (x + 2147483648) % 4294967296 - 2147483648

/-- The value is representable as an `int`. -/
def IsInt (x : Int) : Prop := INT_MIN ≤ x ∧ x ≤ INT_MAX

instance (x : Int) : Decidable (IsInt x) := by
  unfold IsInt; exact inferInstance

/-- Addition of two `int` values (`a + b` in the source). -/
def addInt (a b : Int) : Int := wrapInt (a + b)

/-! ## Operation counters (PolyDataRemeshing.h, lines 142-161) -/

/-- The seven `mirtkReadOnlyAttributeMacro(int, ...)` counters of the filter.
Each field is the private member, and the projection is the read-only getter
of the same name that the attribute macro declares. -/
structure Counters where
  NumberOfMeltedNodes : Int
  NumberOfMeltedEdges : Int
  NumberOfMeltedCells : Int
  NumberOfInversions : Int
  NumberOfBisections : Int
  NumberOfTrisections : Int
  NumberOfQuadsections : Int
deriving DecidableEq, Repr

/-- `PolyDataRemeshing::NumberOfMeltings` (lines 337-340). -/
def NumberOfMeltings (c : Counters) : Int :=
  addInt (addInt c.NumberOfMeltedNodes c.NumberOfMeltedEdges) c.NumberOfMeltedCells

/-- `PolyDataRemeshing::NumberOfSubdivisions` (lines 343-346). -/
def NumberOfSubdivisions (c : Counters) : Int :=
  addInt (addInt c.NumberOfBisections c.NumberOfTrisections) c.NumberOfQuadsections

/-- `PolyDataRemeshing::NumberOfChanges` (lines 349-352). -/
def NumberOfChanges (c : Counters) : Int :=
  addInt (addInt (NumberOfMeltings c) c.NumberOfInversions) (NumberOfSubdivisions c)

/-! ## Geometry

Coordinates are elements of a linear ordered field `K`: the exact-arithmetic
counterpart of `double`.  The definitions are executable for `K = ℚ`. -/

/-- Counterpart of `mirtk::Point` (`mirtk/Point.h`): a point or vector in 3D. -/
structure Point (K : Type) where
  x : K
  y : K
  z : K
deriving DecidableEq, Repr

section Geometry
variable {K : Type} [LinearOrderedField K]

/-- Component-wise difference `p - q`. -/
def Point.sub (p q : Point K) : Point K := ⟨p.x - q.x, p.y - q.y, p.z - q.z⟩

/-- Inner product (`vtkMath::Dot`). -/
def Point.dot (p q : Point K) : K := p.x * q.x + p.y * q.y + p.z * q.z

/-- Vector product (`vtkMath::Cross`). -/
def Point.cross (p q : Point K) : Point K :=
  ⟨p.y * q.z - p.z * q.y, p.z * q.x - p.x * q.z, p.x * q.y - p.y * q.x⟩

/-- Squared Euclidean distance (`vtkMath::Distance2BetweenPoints`). -/
def Distance2BetweenPoints (p q : Point K) : K := (p.sub q).dot (p.sub q)

/-- Point half way between `p` and `q`. -/
def Midpoint (p q : Point K) : Point K :=
  ⟨(p.x + q.x) / 2, (p.y + q.y) / 2, (p.z + q.z) / 2⟩

/-- Squared norm of the (unnormalised) normal `(b - a) × (c - a)` of a triangle. -/
def TriangleNormal2 (a b c : Point K) : K :=
  ((b.sub a).cross (c.sub a)).dot ((b.sub a).cross (c.sub a))

/-- Area of the triangle `a b c` (`vtkTriangle::TriangleArea`): half the norm of
its normal.  The square root of the number type is a parameter. -/
def TriangleArea (sqrt : K → K) (a b c : Point K) : K := sqrt (TriangleNormal2 a b c) / 2

/-- Linear interpolation `a + w (b - a)` between `a` (weight 0) and `b` (weight 1). -/
def lerp (a b w : K) : K := a + w * (b - a)

/-- Restriction of `v` to the interval `[lo, hi]`. -/
def clamp (v lo hi : K) : K := max lo (min v hi)

end Geometry

/-! ## Mesh store and filter attributes -/

/-- A triangular cell: the ids of its three points. -/
structure Triangle where
  p1 : Nat
  p2 : Nat
  p3 : Nat
deriving DecidableEq, Repr

/-- The three edges of a triangle, in cell order. -/
def Triangle.edges (t : Triangle) : List (Nat × Nat) :=
  [(t.p1, t.p2), (t.p2, t.p3), (t.p3, t.p1)]

/-- Whether the point id is one of the three corners. -/
def Triangle.contains (t : Triangle) (ptId : Nat) : Bool :=
  t.p1 == ptId || t.p2 == ptId || t.p3 == ptId

/-- A mesh point: its coordinates and its point normal (the point data the
remeshing passes read). -/
structure Vertex (K : Type) where
  position : Point K
  normal : Point K
deriving DecidableEq, Repr

/-- Modelled from the spec: the Mesh Store (`vtkPolyData`, not among the
sources).  Points are an ordered sequence; a cell is three point ids or the
deleted-cell marker `none` ("a cell may be marked logically deleted").  The
point-to-cell adjacency is derived from the cells, so it is always in
lock-step with them. -/
structure PolyData (K : Type) where
  points : List (Vertex K)
  polys : List (Option Triangle)

/-- `PolyDataRemeshing::Order` (lines 58-64). -/
inductive Order where
  | INDEX
  | AREA
  | SHORTEST_EDGE
deriving DecidableEq, Repr

/-- Attributes of `PolyDataRemeshing` (lines 71-161).  `Output` is the mesh
of the base filter that the passes rewrite; `Transformation` the optional
map to transformed coordinates and normals.  The squared lengths and the
`1 - cos` thresholds are the protected members declared next to the public
attributes. -/
structure PolyDataRemeshing (K : Type) extends Counters where
  Output : PolyData K
  Transformation : Option (Vertex K → Vertex K)
  MinFeatureAngle : K
  MinFeatureAngleCos : K
  MaxFeatureAngle : K
  MaxFeatureAngleCos : K
  MinEdgeLength : K
  MinEdgeLengthSquared : K
  MaxEdgeLength : K
  MaxEdgeLengthSquared : K
  AdaptiveEdgeLengthArray : Option (List K)
  MinEdgeLengthArray : Option (List K)
  MaxEdgeLengthArray : Option (List K)
  MeltingOrder : Order
  MeltNodes : Bool
  MeltTriangles : Bool
  InvertTrianglesSharingOneLongEdge : Bool
  InvertTrianglesToIncreaseMinHeight : Bool

/-- Library functions the filter calls and whose values are not rational
functions of their arguments, or which the spec leaves open: square root,
cosine of an angle in degrees, the logistic function of the edge-length
field, and the percentile of a data array. -/
structure MathFunctions (K : Type) where
  sqrt : K → K
  cos : K → K
  logistic : K → K
  percentile : Nat → List K → K

section Accessors
variable {K : Type} [LinearOrderedField K]

/-- Stored (non-transformed) point; the origin with zero normal for an id out
of range. -/
def PolyData.GetVertex (m : PolyData K) (ptId : Nat) : Vertex K :=
  m.points.getD ptId ⟨⟨0, 0, 0⟩, ⟨0, 0, 0⟩⟩

/-- Cell with the given id, `none` when deleted or out of range. -/
def PolyData.GetCell (m : PolyData K) (cellId : Nat) : Option Triangle :=
  (m.polys.getD cellId none)

/-- The cells that are not marked deleted, in cell order. -/
def PolyData.LiveCells (m : PolyData K) : List Triangle :=
  m.polys.filterMap id

/-- Number of cells that are not marked deleted. -/
def PolyData.NumberOfCells (m : PolyData K) : Nat := m.LiveCells.length

/-- Number of points. -/
def PolyData.NumberOfPoints (m : PolyData K) : Nat := m.points.length

/-- Modelled from the spec: the point seen through the optional coordinate
map ("when absent, raw mesh coordinates are used directly"). -/
def PolyDataRemeshing.GetTransformed (r : PolyDataRemeshing K) (ptId : Nat) : Vertex K :=
  match r.Transformation with
  | some T => T (r.Output.GetVertex ptId)
  | none => r.Output.GetVertex ptId

/-- Modelled from the spec: `GetPoint` (line 198), the (transformed) surface
point. -/
def PolyDataRemeshing.GetPoint (r : PolyDataRemeshing K) (ptId : Nat) : Point K :=
  (r.GetTransformed ptId).position

/-- Modelled from the spec: `GetNormal` (line 201), the (transformed) surface
point normal. -/
def PolyDataRemeshing.GetNormal (r : PolyDataRemeshing K) (ptId : Nat) : Point K :=
  (r.GetTransformed ptId).normal

/-- Modelled from the spec: `MiddlePoint` (lines 206-210), the
(non-transformed) edge middle point. -/
def PolyDataRemeshing.MiddlePoint (r : PolyDataRemeshing K) (ptId1 ptId2 : Nat) : Point K :=
  Midpoint (r.Output.GetVertex ptId1).position (r.Output.GetVertex ptId2).position

/-- Modelled from the spec: `ComputeArea` (line 204), the area of the
(transformed) triangle; zero for a deleted cell. -/
def PolyDataRemeshing.ComputeArea (f : MathFunctions K) (r : PolyDataRemeshing K)
    (cellId : Nat) : K :=
  match r.Output.GetCell cellId with
  | some t => TriangleArea f.sqrt (r.GetPoint t.p1) (r.GetPoint t.p2) (r.GetPoint t.p3)
  | none => 0

/-- Modelled from the spec: `NodeConnectivity` (line 213), the "number of
distinct triangles incident to" the point. -/
def PolyDataRemeshing.NodeConnectivity (r : PolyDataRemeshing K) (ptId : Nat) : Nat :=
  (r.Output.LiveCells.filter (fun t => t.contains ptId)).length

/-- Modelled from the spec: `GetCellEdgeNeighbor` (line 225), the other live
triangle that shares the edge `ptId1 ptId2` with cell `cellId`, if any. -/
def PolyDataRemeshing.GetCellEdgeNeighbor (r : PolyDataRemeshing K)
    (cellId ptId1 ptId2 : Nat) : Option Nat :=
  (List.range r.Output.polys.length).find? (fun c =>
    c != cellId &&
      match r.Output.GetCell c with
      | some t => t.contains ptId1 && t.contains ptId2
      | none => false)

/-- Squared (transformed) length of the edge between two points. -/
def PolyDataRemeshing.EdgeLength2 (r : PolyDataRemeshing K) (ptId1 ptId2 : Nat) : K :=
  Distance2BetweenPoints (r.GetPoint ptId1) (r.GetPoint ptId2)

/-- Modelled from the spec: the feature-angle test between two point normals,
a dot-product comparison against a stored `1 - cos(angle)` threshold: the end
point normals make an angle greater than the threshold angle. -/
def PolyDataRemeshing.IsFeatureEdge (r : PolyDataRemeshing K) (threshold : K)
    (ptId1 ptId2 : Nat) : Bool :=
  decide (threshold < 1 - (r.GetNormal ptId1).dot (r.GetNormal ptId2))

end Accessors

/-! ## Edge-length field (spec 4.1) and `Initialize` (spec 4.5) -/

section EdgeLengthField
variable {K : Type} [LinearOrderedField K]

/-- Modelled from the spec: the blend weight of a scalar of the adaptive
array: "clip the scalar at its [5th,95th] percentile over all points, linearly
rescale to [0,1], pass through a logistic function to get blend weight w". -/
def BlendWeight (f : MathFunctions K) (a : List K) (v : K) : K :=
  let lo := f.percentile 5 a
  let hi := f.percentile 95 a
  f.logistic ((clamp v lo hi - lo) / (hi - lo))

/-- Modelled from the spec: `InitializeEdgeLengthRange` (lines 295-296; the body
is in `PolyDataRemeshing.cc`).  Without an adaptive scalar array no per-node
array is kept.  Otherwise "return min = lerp(globalMin, globalMax, w), same for
max", one entry per tuple of the adaptive array. -/
def PolyDataRemeshing.InitializeEdgeLengthRange (f : MathFunctions K)
    (r : PolyDataRemeshing K) : PolyDataRemeshing K :=
  match r.AdaptiveEdgeLengthArray with
  | none => { r with MinEdgeLengthArray := none, MaxEdgeLengthArray := none }
  | some a =>
    { r with
      MinEdgeLengthArray :=
        some (a.map (fun v => lerp r.MinEdgeLength r.MaxEdgeLength (BlendWeight f a v)))
      MaxEdgeLengthArray :=
        some (a.map (fun v => lerp r.MinEdgeLength r.MaxEdgeLength (BlendWeight f a v))) }

/-- Modelled from the spec: the contract `TargetRange(pointId) -> (min, max)` of
the edge-length field: "If no adaptive scalar array is configured, returns the
global (min, max) unconditionally", otherwise the entries of the per-node
arrays. -/
def PolyDataRemeshing.TargetRange (r : PolyDataRemeshing K) (ptId : Nat) : K × K :=
  (match r.MinEdgeLengthArray with
    | some a => a.getD ptId 0
    | none => r.MinEdgeLength,
   match r.MaxEdgeLengthArray with
    | some a => a.getD ptId 0
    | none => r.MaxEdgeLength)

/-- Modelled from the spec: `SquaredMinEdgeLength` (lines 252-253; body in
`PolyDataRemeshing.cc`): with a per-node array the square of the mean of the
entries of the two end points ("Edge target = arithmetic mean of the two
endpoints' per-point targets"), otherwise the stored squared global minimum. -/
def PolyDataRemeshing.SquaredMinEdgeLength (r : PolyDataRemeshing K)
    (ptId1 ptId2 : Nat) : K :=
  match r.MinEdgeLengthArray with
  | some a =>
    let l := (a.getD ptId1 0 + a.getD ptId2 0) / 2
    l * l
  | none => r.MinEdgeLengthSquared

/-- Modelled from the spec: `SquaredMaxEdgeLength` (lines 255-256), the
counterpart of `SquaredMinEdgeLength` for the maximum. -/
def PolyDataRemeshing.SquaredMaxEdgeLength (r : PolyDataRemeshing K)
    (ptId1 ptId2 : Nat) : K :=
  match r.MaxEdgeLengthArray with
  | some a =>
    let l := (a.getD ptId1 0 + a.getD ptId2 0) / 2
    l * l
  | none => r.MaxEdgeLengthSquared

/-- Counters after `Initialize` ("zero all counters"). -/
def Counters.zero : Counters := ⟨0, 0, 0, 0, 0, 0, 0⟩

/-- Modelled from the spec: `Initialize` (lines 292-293; body in
`PolyDataRemeshing.cc`): "validate global min ≤ max" and reject negative
lengths (a fatal configuration error, `none`), "precompute cos-thresholds for
feature angles (`1 - cos(angle)` stored ...)", the squared global lengths,
"populate per-point ... length arrays, zero all counters". -/
def PolyDataRemeshing.Initialize (f : MathFunctions K) (r : PolyDataRemeshing K) :
    Option (PolyDataRemeshing K) :=
  if r.MinEdgeLength < 0 ∨ r.MaxEdgeLength < 0 ∨ r.MaxEdgeLength < r.MinEdgeLength then none
  else
    some (PolyDataRemeshing.InitializeEdgeLengthRange f
      { r with
        toCounters := Counters.zero
        MinFeatureAngleCos := 1 - f.cos r.MinFeatureAngle
        MaxFeatureAngleCos := 1 - f.cos r.MaxFeatureAngle
        MinEdgeLengthSquared := r.MinEdgeLength * r.MinEdgeLength
        MaxEdgeLengthSquared := r.MaxEdgeLength * r.MaxEdgeLength })

end EdgeLengthField

/-! ## Subdivision pass (spec 4.4) -/

section SubdivisionPass
variable {K : Type} [LinearOrderedField K]

/-- Modelled from the spec: the edge classification of the subdivision pass.
An edge is split when it is over-long ("length² > SquaredMaxEdgeLength"), or
when its end point normals make an angle greater than `MaxFeatureAngle` and
both halves are at least `MinEdgeLength` long (lines 85-90: "the respective
edge is subdivided even if the edge is shorter than the _MaxEdgeLength if both
edges resulting from splitting the edge in half are at least _MinEdgeLength
long"); each half being half the edge, that is `4 MinEdgeLength² ≤ length²`. -/
def PolyDataRemeshing.SplitEdge (r : PolyDataRemeshing K) (ptId1 ptId2 : Nat) : Bool :=
  decide (r.SquaredMaxEdgeLength ptId1 ptId2 < r.EdgeLength2 ptId1 ptId2)
    || (r.IsFeatureEdge r.MaxFeatureAngleCos ptId1 ptId2
        && decide (4 * r.MinEdgeLengthSquared ≤ r.EdgeLength2 ptId1 ptId2))

/-- The `vtkPoints` and `vtkCellArray` that `Bisect`, `Trisect` and `Quadsect`
fill (their last two arguments, lines 280-287), with the counters they
increment. -/
structure SubdivisionOutput (K : Type) where
  points : List (Vertex K)
  polys : List Triangle
  counters : Counters

/-- Modelled from the spec: the point inserted on an edge: "insert 1 new point
at its (non-transformed) midpoint", and "New point attributes are interpolated
linearly between the edge's two endpoints" (`InterpolatePointData`, line 247). -/
def PolyDataRemeshing.NewEdgePoint (r : PolyDataRemeshing K) (ptId1 ptId2 : Nat) : Vertex K :=
  ⟨r.MiddlePoint ptId1 ptId2,
   Midpoint (r.Output.GetVertex ptId1).normal (r.Output.GetVertex ptId2).normal⟩

/-- Modelled from the spec: `Bisect` (lines 280-281): "insert 1 new point at its
(non-transformed) midpoint, replace 1 triangle with 2".  The split edge is
`ptId1 ptId2`, `ptId3` the opposite corner; both new triangles keep the
winding of the cell. -/
def PolyDataRemeshing.Bisect (r : PolyDataRemeshing K) (_cellId ptId1 ptId2 ptId3 : Nat)
    (o : SubdivisionOutput K) : SubdivisionOutput K :=
  let newId := o.points.length
  { points := o.points ++ [r.NewEdgePoint ptId1 ptId2]
    polys := o.polys ++ [⟨ptId1, newId, ptId3⟩, ⟨newId, ptId2, ptId3⟩]
    counters := { o.counters with
      NumberOfBisections := addInt o.counters.NumberOfBisections 1 } }

/-- Modelled from the spec: `Trisect` (lines 283-284): "insert 2 new midpoints,
replace 1 triangle with 3, oriented so the new triangles remain non-degenerate
and consistently wound".  The split edges are `ptId1 ptId2` and `ptId2 ptId3`.
The corner triangle at `ptId2` is cut off; the spec does not say along which
diagonal the remaining quadrilateral is divided, so the choice is the
argument `alt`. -/
def PolyDataRemeshing.Trisect (r : PolyDataRemeshing K) (alt : Bool)
    (_cellId ptId1 ptId2 ptId3 : Nat) (o : SubdivisionOutput K) : SubdivisionOutput K :=
  let newId1 := o.points.length
  let newId2 := o.points.length + 1
  { points := o.points ++ [r.NewEdgePoint ptId1 ptId2, r.NewEdgePoint ptId2 ptId3]
    polys := o.polys ++
      (if alt then
        [⟨newId1, ptId2, newId2⟩, ⟨ptId1, newId1, ptId3⟩, ⟨newId1, newId2, ptId3⟩]
      else
        [⟨newId1, ptId2, newId2⟩, ⟨ptId1, newId1, newId2⟩, ⟨ptId1, newId2, ptId3⟩])
    counters := { o.counters with
      NumberOfTrisections := addInt o.counters.NumberOfTrisections 1 } }

/-- Modelled from the spec: `Quadsect` (lines 286-287): "insert 3 new midpoints,
replace 1 triangle with 4 (the classic 1-to-4 split)": three corner triangles
and the triangle of the three midpoints. -/
def PolyDataRemeshing.Quadsect (r : PolyDataRemeshing K) (_cellId ptId1 ptId2 ptId3 : Nat)
    (o : SubdivisionOutput K) : SubdivisionOutput K :=
  let newId1 := o.points.length
  let newId2 := o.points.length + 1
  let newId3 := o.points.length + 2
  { points := o.points ++
      [r.NewEdgePoint ptId1 ptId2, r.NewEdgePoint ptId2 ptId3, r.NewEdgePoint ptId3 ptId1]
    polys := o.polys ++
      [⟨ptId1, newId1, newId3⟩, ⟨newId1, ptId2, newId2⟩, ⟨newId3, newId2, ptId3⟩,
       ⟨newId1, newId2, newId3⟩]
    counters := { o.counters with
      NumberOfQuadsections := addInt o.counters.NumberOfQuadsections 1 } }

/-- Modelled from the spec: the treatment of one live triangle by the
subdivision pass: "1 over-long edge → Bisect", "2 over-long edges → Trisect",
"3 over-long edges → Quadsect"; a triangle without an edge to split is copied
to the new cell array.  The corners are passed rotated so that the split
edges are the ones `Bisect` and `Trisect` expect. -/
def PolyDataRemeshing.SubdivideCell (r : PolyDataRemeshing K)
    (alt : Nat → Nat → Nat → Bool) (cellId : Nat) (t : Triangle)
    (o : SubdivisionOutput K) : SubdivisionOutput K :=
  match r.SplitEdge t.p1 t.p2, r.SplitEdge t.p2 t.p3, r.SplitEdge t.p3 t.p1 with
  | false, false, false => { o with polys := o.polys ++ [t] }
  | true, false, false => r.Bisect cellId t.p1 t.p2 t.p3 o
  | false, true, false => r.Bisect cellId t.p2 t.p3 t.p1 o
  | false, false, true => r.Bisect cellId t.p3 t.p1 t.p2 o
  | true, true, false => r.Trisect (alt t.p1 t.p2 t.p3) cellId t.p1 t.p2 t.p3 o
  | false, true, true => r.Trisect (alt t.p2 t.p3 t.p1) cellId t.p2 t.p3 t.p1 o
  | true, false, true => r.Trisect (alt t.p3 t.p1 t.p2) cellId t.p3 t.p1 t.p2 o
  | true, true, true => r.Quadsect cellId t.p1 t.p2 t.p3 o

/-- Modelled from the spec: the scan of the subdivision pass over the cells
`polys` starting with cell id `cellId`: deleted cells are skipped ("For each
live triangle").  `Bisect`, `Trisect` and `Quadsect` receive the points and
the cell array only (lines 280-287), so each call inserts the points of its
own triangle: the point on an edge shared by two split triangles is inserted
once for each of them.  Neither the header nor the spec says where such
coincident points are made one, so this scan says what becomes of a single
triangle and of a mesh without an edge to split, not how the triangles of a
split mesh are connected. -/
def PolyDataRemeshing.SubdivideCells (r : PolyDataRemeshing K)
    (alt : Nat → Nat → Nat → Bool) :
    List (Option Triangle) → Nat → SubdivisionOutput K → SubdivisionOutput K
  | [], _, o => o
  | none :: cs, cellId, o => PolyDataRemeshing.SubdivideCells r alt cs (cellId + 1) o
  | some t :: cs, cellId, o =>
    PolyDataRemeshing.SubdivideCells r alt cs (cellId + 1) (r.SubdivideCell alt cellId t o)

/-- Modelled from the spec: `Subdivision` (lines 307-308; body in
`PolyDataRemeshing.cc`), the third pass.  The new points are appended to the
points of the mesh, the cells of the mesh are replaced by the new cell array,
and the three subdivision counters are updated. -/
def PolyDataRemeshing.Subdivision (r : PolyDataRemeshing K)
    (alt : Nat → Nat → Nat → Bool) : PolyDataRemeshing K :=
  let o := PolyDataRemeshing.SubdivideCells r alt r.Output.polys 0
    ⟨r.Output.points, [], r.toCounters⟩
  { r with
    toCounters := o.counters
    Output := ⟨o.points, o.polys.map some⟩ }

/-- Area of the triangle `t` over the point list `points`, in mesh
(non-transformed) coordinates: what `ComputeArea` returns for a cell when no
transformation is set. -/
def CellArea (sqrt : K → K) (points : List (Vertex K)) (t : Triangle) : K :=
  TriangleArea sqrt (PolyData.GetVertex ⟨points, []⟩ t.p1).position
    (PolyData.GetVertex ⟨points, []⟩ t.p2).position
    (PolyData.GetVertex ⟨points, []⟩ t.p3).position

end SubdivisionPass

/-! ## Melting pass (spec 4.2), inversion pass (spec 4.3) and `Execute` (spec 4.5) -/

/-- Modelled from the spec: the local operators of the melting and inversion
passes.  Their bodies are in `PolyDataRemeshing.cc`, and the spec describes
them by their effect only, so each is a parameter of the passes; the passes
themselves fix when an operator is attempted.  `MeltEdge` and `MeltTriangle`
return whether they succeeded, the state they leave, and the cells to inspect
again; `MeltNodeAccepted` is the check of a node of connectivity three (its "3
incident triangles form a valid fan (no boundary)", and the melt is not
"skipped" for a degenerate result or feature-edge protection), `MeltNode` the
replacement of its three triangles by one; `FlipIsValid` is the check that a
flip "does not invert triangle orientation or reduce either triangle's area to
non-positive"; `FlipIncreasesMinHeight` whether the minimum triangle height
strictly increases; `InvertEdge` the flip; `TrisectDiagonal` the diagonal
`Trisect` uses. -/
structure LocalOperations (K : Type) where
  MeltEdge : PolyDataRemeshing K → Nat → Nat → Nat → Bool × PolyDataRemeshing K × List Nat
  MeltTriangle : PolyDataRemeshing K → Nat → Bool × PolyDataRemeshing K × List Nat
  MeltNodeAccepted : PolyDataRemeshing K → Nat → Bool
  MeltNode : PolyDataRemeshing K → Nat → PolyDataRemeshing K
  FlipIsValid : PolyDataRemeshing K → Nat → Nat → Nat → Nat → Bool
  FlipIncreasesMinHeight : PolyDataRemeshing K → Nat → Nat → Nat → Nat → Bool
  InvertEdge : PolyDataRemeshing K → Nat → Nat → Nat → Nat → PolyDataRemeshing K
  TrisectDiagonal : PolyDataRemeshing K → Nat → Nat → Nat → Bool

section Passes
variable {K : Type} [LinearOrderedField K]

/-- Modelled from the spec: the edge is shorter than its minimum length
("edge length < SquaredMinEdgeLength(edge)", compared as squares). -/
def PolyDataRemeshing.IsShortEdge (r : PolyDataRemeshing K) (ptId1 ptId2 : Nat) : Bool :=
  decide (r.EdgeLength2 ptId1 ptId2 < r.SquaredMinEdgeLength ptId1 ptId2)

/-- Modelled from the spec: the edge qualifies for `MeltEdge`: it is short "AND
the edge is not a protected feature edge" ("MinFeatureAngle-exceeding edges
are protected"). -/
def PolyDataRemeshing.MayMeltEdge (r : PolyDataRemeshing K) (ptId1 ptId2 : Nat) : Bool :=
  r.IsShortEdge ptId1 ptId2 && !r.IsFeatureEdge r.MinFeatureAngleCos ptId1 ptId2

/-- Modelled from the spec: `MeltingPriority` (line 244): the key of a cell in
the melting queue, "keyed by one of {cell index, cell area, shortest-edge
length} depending on configured order". -/
def PolyDataRemeshing.MeltingPriority (f : MathFunctions K) (r : PolyDataRemeshing K)
    (cellId : Nat) : K :=
  match r.MeltingOrder with
  | Order.INDEX => (cellId : K)
  | Order.AREA => r.ComputeArea f cellId
  | Order.SHORTEST_EDGE =>
    match r.Output.GetCell cellId with
    | some t =>
      f.sqrt (min (r.EdgeLength2 t.p1 t.p2) (min (r.EdgeLength2 t.p2 t.p3) (r.EdgeLength2 t.p3 t.p1)))
    | none => 0

/-- Modelled from the spec: the melting priority queue, "rebuilt at the start
of each Melting pass": the ids of the live cells in ascending order of
priority. -/
def PolyDataRemeshing.MeltingQueue (f : MathFunctions K) (r : PolyDataRemeshing K) : List Nat :=
  ((List.range r.Output.polys.length).filter (fun c => (r.Output.GetCell c).isSome)).insertionSort
    (fun i j => r.MeltingPriority f i ≤ r.MeltingPriority f j)

/-- Modelled from the spec: "for each of its 3 edges, if edge length <
SquaredMinEdgeLength(edge) AND the edge is not a protected feature edge ...,
attempt `MeltEdge`"; the scan of the edges ends with the first successful
melt, which counts as one melted edge. -/
def PolyDataRemeshing.MeltEdges (ops : LocalOperations K) :
    List (Nat × Nat) → PolyDataRemeshing K → Nat → Bool × PolyDataRemeshing K × List Nat
  | [], r, _ => (false, r, [])
  | e :: es, r, cellId =>
    if r.MayMeltEdge e.1 e.2 then
      let res := ops.MeltEdge r cellId e.1 e.2
      if res.1 then
        (true, { res.2.1 with
          NumberOfMeltedEdges := addInt res.2.1.NumberOfMeltedEdges 1 }, res.2.2)
      else PolyDataRemeshing.MeltEdges ops es res.2.1 cellId
    else PolyDataRemeshing.MeltEdges ops es r cellId

/-- Modelled from the spec: the treatment of one cell popped from the melting
queue: `MeltEdge` for the edges that qualify; "If no single edge qualifies but
≥2 of the cell's 3 edges are below threshold, attempt `MeltTriangle`" (when
`MeltTriangles` is enabled), a success counting as one melted cell. -/
def PolyDataRemeshing.MeltCell (ops : LocalOperations K) (r : PolyDataRemeshing K)
    (cellId : Nat) (t : Triangle) : Bool × PolyDataRemeshing K × List Nat :=
  if t.edges.any (fun e => r.MayMeltEdge e.1 e.2) then
    PolyDataRemeshing.MeltEdges ops t.edges r cellId
  else if r.MeltTriangles && decide (2 ≤ (t.edges.filter (fun e => r.IsShortEdge e.1 e.2)).length) then
    let res := ops.MeltTriangle r cellId
    if res.1 then
      (true, { res.2.1 with
        NumberOfMeltedCells := addInt res.2.1.NumberOfMeltedCells 1 }, res.2.2)
    else (false, res.2.1, [])
  else (false, r, [])

/-- Modelled from the spec: the loop of `MeltingOfCells` over the queue: "pop
... cell ...; skip if already deleted"; on success "re-inspect affected
neighbor cells ... before continuing".  Every popped cell costs one unit of
`fuel`; `none` when the fuel runs out before the queue is empty. -/
def PolyDataRemeshing.MeltingLoop (ops : LocalOperations K) :
    Nat → List Nat → PolyDataRemeshing K → Option (PolyDataRemeshing K)
  | _, [], r => some r
  | 0, _ :: _, _ => none
  | fuel + 1, cellId :: queue, r =>
    match r.Output.GetCell cellId with
    | none => PolyDataRemeshing.MeltingLoop ops fuel queue r
    | some t =>
      let res := r.MeltCell ops cellId t
      PolyDataRemeshing.MeltingLoop ops fuel (if res.1 then res.2.2 ++ queue else queue) res.2.1

/-- Modelled from the spec: `MeltingOfCells` (lines 268-269). -/
def PolyDataRemeshing.MeltingOfCells (f : MathFunctions K) (ops : LocalOperations K)
    (fuel : Nat) (r : PolyDataRemeshing K) : Option (PolyDataRemeshing K) :=
  PolyDataRemeshing.MeltingLoop ops fuel (r.MeltingQueue f) r

/-- Modelled from the spec: the step of `MeltingOfNodes` at one point: "for
every point with connectivity exactly 3 whose 3 incident triangles form a
valid fan ..., replace the 3 triangles with 1 triangle ...; skipped if ...",
a melt counting as one melted node. -/
def PolyDataRemeshing.MeltNodeAt (ops : LocalOperations K) (r : PolyDataRemeshing K)
    (ptId : Nat) : PolyDataRemeshing K :=
  if r.NodeConnectivity ptId = 3 ∧ ops.MeltNodeAccepted r ptId = true then
    let s := ops.MeltNode r ptId
    { s with NumberOfMeltedNodes := addInt s.NumberOfMeltedNodes 1 }
  else r

/-- Modelled from the spec: `MeltingOfNodes` (lines 271-272), run over all
points when `MeltNodes` is enabled. -/
def PolyDataRemeshing.MeltingOfNodes (ops : LocalOperations K) (r : PolyDataRemeshing K) :
    PolyDataRemeshing K :=
  if r.MeltNodes then
    (List.range r.Output.points.length).foldl (fun s ptId => s.MeltNodeAt ops ptId) r
  else r

/-- Modelled from the spec: `Melting` (lines 301-302), the first pass: melting of
cells, and "Separately" melting of nodes. -/
def PolyDataRemeshing.Melting (f : MathFunctions K) (ops : LocalOperations K)
    (fuel : Nat) (r : PolyDataRemeshing K) : Option (PolyDataRemeshing K) :=
  (r.MeltingOfCells f ops fuel).map (fun s => s.MeltingOfNodes ops)

/-- The `i`-th edge of a triangle (`i` = 0, 1, 2). -/
def Triangle.edge (t : Triangle) (i : Nat) : Nat × Nat :=
  match i with
  | 0 => (t.p1, t.p2)
  | 1 => (t.p2, t.p3)
  | _ => (t.p3, t.p1)

/-- Modelled from the spec: the flip of inversion (a) is accepted: "the shared
edge exceeds SquaredMaxEdgeLength" and "the flip does not invert triangle
orientation or reduce either triangle's area to non-positive". -/
def PolyDataRemeshing.LongEdgeFlipAccepted (ops : LocalOperations K) (r : PolyDataRemeshing K)
    (cellId neighborId ptId1 ptId2 : Nat) : Bool :=
  decide (r.SquaredMaxEdgeLength ptId1 ptId2 < r.EdgeLength2 ptId1 ptId2)
    && ops.FlipIsValid r cellId neighborId ptId1 ptId2

/-- Modelled from the spec: one step of an inversion pass: the `i`-th edge of
cell `cellId`, if the cell is live and shares the edge with another triangle,
is flipped when `accepted` holds; "Increment the inversion counter on each
accepted flip". -/
def PolyDataRemeshing.InvertAt (ops : LocalOperations K)
    (accepted : PolyDataRemeshing K → Nat → Nat → Nat → Nat → Bool)
    (r : PolyDataRemeshing K) (cellId i : Nat) : PolyDataRemeshing K :=
  match r.Output.GetCell cellId with
  | none => r
  | some t =>
    match r.GetCellEdgeNeighbor cellId (t.edge i).1 (t.edge i).2 with
    | none => r
    | some neighborId =>
      if accepted r cellId neighborId (t.edge i).1 (t.edge i).2 then
        let s := ops.InvertEdge r cellId neighborId (t.edge i).1 (t.edge i).2
        { s with NumberOfInversions := addInt s.NumberOfInversions 1 }
      else r

/-- Modelled from the spec: the scan of an inversion pass: "For every pair of
triangles sharing an edge", visited as the three edges of every cell. -/
def PolyDataRemeshing.InvertAll (ops : LocalOperations K)
    (accepted : PolyDataRemeshing K → Nat → Nat → Nat → Nat → Bool)
    (r : PolyDataRemeshing K) : PolyDataRemeshing K :=
  (List.range r.Output.polys.length).foldl
    (fun s cellId => [0, 1, 2].foldl (fun u i => u.InvertAt ops accepted cellId i) s) r

/-- Modelled from the spec: `InversionOfTrianglesSharingOneLongEdge` (lines
274-275). -/
def PolyDataRemeshing.InversionOfTrianglesSharingOneLongEdge (ops : LocalOperations K)
    (r : PolyDataRemeshing K) : PolyDataRemeshing K :=
  r.InvertAll ops (PolyDataRemeshing.LongEdgeFlipAccepted ops)

/-- Modelled from the spec: `InversionOfTrianglesToIncreaseMinHeight` (lines
277-278): the flip is performed "only if the minimum strictly increases". -/
def PolyDataRemeshing.InversionOfTrianglesToIncreaseMinHeight (ops : LocalOperations K)
    (r : PolyDataRemeshing K) : PolyDataRemeshing K :=
  r.InvertAll ops ops.FlipIncreasesMinHeight

/-- Modelled from the spec: `Inversion` (lines 304-305), the second pass: (a) "if
`InvertTrianglesSharingOneLongEdge` is enabled ...", (b) "if
`InvertTrianglesToIncreaseMinHeight` is enabled ...". -/
def PolyDataRemeshing.Inversion (ops : LocalOperations K) (r : PolyDataRemeshing K) :
    PolyDataRemeshing K :=
  let s := if r.InvertTrianglesSharingOneLongEdge then
    r.InversionOfTrianglesSharingOneLongEdge ops else r
  if s.InvertTrianglesToIncreaseMinHeight then
    s.InversionOfTrianglesToIncreaseMinHeight ops else s

/-- Modelled from the spec: `Execute` (lines 298-299; body in
`PolyDataRemeshing.cc`): "run Melting → Inversion → Subdivision in that fixed
order".  `none` when the melting loop runs out of `fuel`. -/
def PolyDataRemeshing.Execute (f : MathFunctions K) (ops : LocalOperations K)
    (fuel : Nat) (r : PolyDataRemeshing K) : Option (PolyDataRemeshing K) :=
  (r.Melting f ops fuel).map (fun s =>
    (s.Inversion ops).Subdivision (ops.TrisectDiagonal (s.Inversion ops)))

end Passes

/-! ## Concrete inputs -/

section Examples
variable (K : Type) [LinearOrderedField K]

/-- Stand-ins for the library functions in the concrete examples; the logistic
function is replaced by a rational function with values in `[0, 1]`, and the
cosine is that of 180 degrees. -/
def ExampleFunctions : MathFunctions K :=
  { sqrt := fun x => x
    cos := fun _ => -1
    logistic := fun t => 1 / (1 + t * t)
    percentile := fun _ a => a.headD 0 }

/-- Local operators that decline every operation. -/
def NoOperations : LocalOperations K :=
  { MeltEdge := fun r _ _ _ => (false, r, [])
    MeltTriangle := fun r _ => (false, r, [])
    MeltNodeAccepted := fun _ _ => false
    MeltNode := fun r _ => r
    FlipIsValid := fun _ _ _ _ _ => false
    FlipIncreasesMinHeight := fun _ _ _ _ _ => false
    InvertEdge := fun r _ _ _ _ => r
    TrisectDiagonal := fun _ _ _ _ => false }

/-- An initialized filter (edge lengths in `[minLength, maxLength]`, both feature
thresholds `1 - cos 180° = 2`, no adaptive array, all counters zero) over the
given mesh. -/
def ExampleFilter (minLength maxLength : K) (mesh : PolyData K) : PolyDataRemeshing K :=
  { toCounters := Counters.zero
    Output := mesh
    Transformation := none
    MinFeatureAngle := 180
    MinFeatureAngleCos := 2
    MaxFeatureAngle := 180
    MaxFeatureAngleCos := 2
    MinEdgeLength := minLength
    MinEdgeLengthSquared := minLength * minLength
    MaxEdgeLength := maxLength
    MaxEdgeLengthSquared := maxLength * maxLength
    AdaptiveEdgeLengthArray := none
    MinEdgeLengthArray := none
    MaxEdgeLengthArray := none
    MeltingOrder := Order.INDEX
    MeltNodes := true
    MeltTriangles := true
    InvertTrianglesSharingOneLongEdge := true
    InvertTrianglesToIncreaseMinHeight := true }

/-- The triangle with corners `(s, 0, 0)`, `(0, s, 0)`, `(0, 0, s)`: all three
edges have squared length `2 s²`.  All point normals are `(0, 0, 1)`. -/
def CornerTriangle (s : K) : PolyData K :=
  ⟨[⟨⟨s, 0, 0⟩, ⟨0, 0, 1⟩⟩, ⟨⟨0, s, 0⟩, ⟨0, 0, 1⟩⟩, ⟨⟨0, 0, s⟩, ⟨0, 0, 1⟩⟩], [some ⟨0, 1, 2⟩]⟩

/-- The unit square in the plane `z = 0`, cut into two triangles along a
diagonal.  All point normals are `(0, 0, 1)`. -/
def SquareMesh : PolyData K :=
  ⟨[⟨⟨0, 0, 0⟩, ⟨0, 0, 1⟩⟩, ⟨⟨1, 0, 0⟩, ⟨0, 0, 1⟩⟩, ⟨⟨1, 1, 0⟩, ⟨0, 0, 1⟩⟩,
    ⟨⟨0, 1, 0⟩, ⟨0, 0, 1⟩⟩], [some ⟨0, 1, 2⟩, some ⟨0, 2, 3⟩]⟩

/-- A right triangle with legs of length 1 whose first edge is a feature edge:
the normals of its end points are orthogonal, the other two pairs of normals
make angles below 60 degrees. -/
def FeatureTriangle : PolyData K :=
  ⟨[⟨⟨0, 0, 0⟩, ⟨1, 0, 0⟩⟩, ⟨⟨1, 0, 0⟩, ⟨0, 1, 0⟩⟩, ⟨⟨0, 1, 0⟩, ⟨3 / 5, 4 / 5, 0⟩⟩],
    [some ⟨0, 1, 2⟩]⟩

/-- A filter with edge lengths in `[1/4, 2]` and `MaxFeatureAngle` 60 degrees
(`1 - cos 60° = 1/2`) over `FeatureTriangle`. -/
def FeatureFilter : PolyDataRemeshing K :=
  { ExampleFilter K (1 / 4) 2 (FeatureTriangle K) with
    MaxFeatureAngle := 60
    MaxFeatureAngleCos := 1 / 2 }

/-- The filter of `ExampleFilter` with an adaptive edge length array on the
three points of a triangle, before `InitializeEdgeLengthRange`. -/
def AdaptiveFilter : PolyDataRemeshing K :=
  { ExampleFilter K 1 3 (CornerTriangle K 1) with
    AdaptiveEdgeLengthArray := some [1, 2, 4] }

end Examples

/-! ## Process exit (`cerr << ...; exit(1)`) -/

/-- Termination of the process by `exit(status)` after a message on `cerr`. -/
structure ProcessExit where
  status : Int
  cerr : String
deriving DecidableEq, Repr

/-! ## Registration energy (Modules/Registration/src/RegistrationEnergy.cc) -/

section Energy
variable {K S : Type} [LinearOrderedField K]

/-- An energy term `_Term[i]` as `RegistrationEnergy` sees it: whether
`dynamic_cast<SparsityConstraint *>` succeeds, the weight read and written by
`Weight()` / `Weight(w)`, and whatever else the term holds. -/
structure EnergyTerm (K S : Type) where
  IsSparsityConstraint : Bool
  Weight : K
  State : S

/-- The term after `Weight(w)`. -/
def EnergyTerm.SetWeight (t : EnergyTerm K S) (w : K) : EnergyTerm K S :=
  { t with Weight := w }

/-- The energy function object: `_Term`, the attributes read by `Initialize`,
`Update` and `Gradient`, and of `_Transformation` its changed flag, its number
of parameters and which of them are `Active`. -/
structure RegistrationEnergy (K S : Type) where
  Term : List (EnergyTerm K S)
  TransformationChanged : Bool
  NumberOfDOFs : Nat
  IsActive : Nat → Bool
  NormalizeGradients : Bool
  Preconditioning : K
  StepLength : K

/-- The virtual methods of the energy terms and the other callees whose
classes are not among the sources, as parameters.  A gradient method maps the
buffer before the call to the buffer after it. -/
structure EnergyFunctions (K S : Type) where
  /-- `EnergyTerm::Initialize()`. -/
  Initialize : EnergyTerm K S → EnergyTerm K S
  /-- `EnergyTerm::Update(gradient)`. -/
  Update : Bool → EnergyTerm K S → EnergyTerm K S
  /-- `EnergyTerm::ResetValue()`. -/
  ResetValue : EnergyTerm K S → EnergyTerm K S
  /-- `EnergyTerm::Gradient(gradient, step)`. -/
  Gradient : EnergyTerm K S → K → List K → List K
  /-- `EnergyTerm::NormalizedGradient(gradient, step)`. -/
  NormalizedGradient : EnergyTerm K S → K → List K → List K
  /-- `SparsityConstraint::Gradient(gradient, step, sgn_chg)`. -/
  SparsityGradient : EnergyTerm K S → K → List K → Option (List Bool) →
    List K × Option (List Bool)
  /-- `RegistrationEnergy::NormalizeGradient(gradient)` (lines 492-530), which
  works on the control points of a free-form transformation. -/
  NormalizeGradient : K → List K → List K
  /-- `_PreUpdateFunction`, when one is set. -/
  PreUpdateFunction : Option (Bool → RegistrationEnergy K S → RegistrationEnergy K S)

/-- `_Term[i]->Weight(w)`. -/
def RegistrationEnergy.SetWeight (E : RegistrationEnergy K S) (i : Nat) (w : K) :
    RegistrationEnergy K S :=
  { E with Term := E.Term.modify (fun t => t.SetWeight w) i }

/-- `RegistrationEnergy::Update` (lines 328-373). -/
def RegistrationEnergy.Update (m : EnergyFunctions K S) (gradient : Bool)
    (E : RegistrationEnergy K S) : RegistrationEnergy K S :=
  let E := match m.PreUpdateFunction with
    | some preupdate => preupdate gradient E
    | none => E
  if E.TransformationChanged || gradient then
    { E with
      Term := E.Term.map (fun t =>
        if t.Weight ≠ 0 then m.ResetValue (m.Update gradient t) else t)
      TransformationChanged := false }
  else E

/-- The loop `for (j ...) if (j != i) _Term[j]->Gradient(gradient, _StepLength)`
of `Initialize` (lines 206-208). -/
def RegistrationEnergy.GradientExcluding (m : EnergyFunctions K S)
    (E : RegistrationEnergy K S) (i : Nat) (gradient : List K) : List K :=
  (List.range E.Term.length).foldl (fun g j =>
    match E.Term.get? j with
    | some t => if j ≠ i then m.Gradient t E.StepLength g else g
    | none => g) gradient

/-- The loop over the parameters in `Initialize` (lines 211-218): the sum of
`abs(gradient[dof])` over the active parameters, and their number. -/
def RegistrationEnergy.ActiveNorm (E : RegistrationEnergy K S) (gradient : List K) :
    K × Int :=
  (List.range E.NumberOfDOFs).foldl (fun (acc : K × Int) dof =>
    if E.IsActive dof then (acc.1 + |gradient.getD dof 0|, addInt acc.2 1) else acc) (0, 0)

/-- State of the sparsity loop of `Initialize`: the energy, `nsparsity`, what
was written to `cerr`, and whether the loop was left by `break`. -/
structure SparsityLoop (K S : Type) where
  Energy : RegistrationEnergy K S
  nsparsity : Int
  cerr : List String
  left : Bool

/-- One iteration of the sparsity loop of `Initialize` (lines 185-226). -/
def RegistrationEnergy.AdjustSparsityWeight (m : EnergyFunctions K S)
    (s : SparsityLoop K S) (i : Nat) : SparsityLoop K S :=
  if s.left then s
  else match s.Energy.Term.get? i with
    | none => s
    | some sparsity =>
      if sparsity.IsSparsityConstraint then
        let weight := sparsity.Weight
        if weight = 0 then s
        else
          let nsparsity := addInt s.nsparsity 1
          if nsparsity > 1 then
            { Energy := s.Energy.SetWeight i 0
              nsparsity := nsparsity
              cerr := if nsparsity = 2 then s.cerr ++
                ["WARNING Only first sparsity term will be used! Ignoring additional sparsity terms."]
                else s.cerr
              left := true }
          else
            let E := s.Energy.Update m true
            let gradient := E.GradientExcluding m i (List.replicate E.NumberOfDOFs 0)
            let norm := (E.ActiveNorm gradient).1
            let nactive := (E.ActiveNorm gradient).2
            { s with
              Energy := if nactive > 0 then E.SetWeight i (weight * norm / nactive) else E
              nsparsity := nsparsity }
      else s

/-- `RegistrationEnergy::Initialize` (lines 171-227); the second component is
what was written to `cerr`. -/
def RegistrationEnergy.Initialize (m : EnergyFunctions K S) (E : RegistrationEnergy K S) :
    RegistrationEnergy K S × List String :=
  let E := { E with TransformationChanged := true, Term := E.Term.map m.Initialize }
  let s := (List.range E.Term.length).foldl (RegistrationEnergy.AdjustSparsityWeight m)
    ⟨E, 0, [], false⟩
  (s.Energy, s.cerr)

/-- The weight sum `W` of `Gradient` (lines 556-561): sparsity terms are skipped. -/
def RegistrationEnergy.TotalWeight (E : RegistrationEnergy K S) : K :=
  E.Term.foldl (fun W t => if t.IsSparsityConstraint then W else W + |t.Weight|) 0

/-- The loop of `Gradient` with normalisation (lines 566-575). -/
def RegistrationEnergy.AddNormalizedGradients (m : EnergyFunctions K S)
    (E : RegistrationEnergy K S) (W step : K) (gradient : List K) : List K :=
  E.Term.foldl (fun g t =>
    let w := t.Weight
    if w ≠ 0 then
      if t.IsSparsityConstraint then g
      else m.NormalizedGradient (t.SetWeight (w / W)) step g
    else g) gradient

/-- The loop of `Gradient` without normalisation (lines 577-584). -/
def RegistrationEnergy.AddGradients (m : EnergyFunctions K S)
    (E : RegistrationEnergy K S) (step : K) (gradient : List K) : List K :=
  E.Term.foldl (fun g t =>
    if t.Weight ≠ 0 then
      if t.IsSparsityConstraint then g
      else m.Gradient t step g
    else g) gradient

/-- The last loop of `Gradient` (lines 587-595), left by `break` after the
first sparsity term with non-zero weight. -/
def AddSparsityGradient (m : EnergyFunctions K S) (step : K) :
    List (EnergyTerm K S) → List K × Option (List Bool) → List K × Option (List Bool)
  | [], out => out
  | t :: ts, out =>
    if t.Weight ≠ 0 then
      if t.IsSparsityConstraint then m.SparsityGradient t step out.1 out.2
      else AddSparsityGradient m step ts out
    else AddSparsityGradient m step ts out

/-- `RegistrationEnergy::Gradient` (lines 533-618).  The buffers `gradient`
and `sgn_chg` hold at least `NumberOfDOFs` entries; the result is their
content on return, or the exit of the process. -/
def RegistrationEnergy.Gradient (m : EnergyFunctions K S) (E : RegistrationEnergy K S)
    (gradient : List K) (step : K) (sgn_chg : Option (List Bool)) :
    Except ProcessExit (List K × Option (List Bool)) :=
  let ndofs := E.NumberOfDOFs
  let step := if step ≤ 0 then E.StepLength else step
  let gradient := List.replicate ndofs 0 ++ gradient.drop ndofs
  let sgn_chg := sgn_chg.map (fun s => List.replicate ndofs true ++ s.drop ndofs)
  let summed : Except ProcessExit (List K) :=
    if E.NormalizeGradients then
      let W := E.TotalWeight
      if W = 0 then
        Except.error ⟨1, "RegistrationEnergy::Gradient: All energy terms have zero weight!"⟩
      else Except.ok (E.AddNormalizedGradients m W step gradient)
    else Except.ok (E.AddGradients m step gradient)
  match summed with
  | Except.error e => Except.error e
  | Except.ok gradient =>
    let out := AddSparsityGradient m step E.Term (gradient, sgn_chg)
    if E.Preconditioning > 0 then Except.ok (m.NormalizeGradient E.Preconditioning out.1, out.2)
    else Except.ok out

end Energy

section EnergyInWords
variable {K S : Type} [LinearOrderedField K]

/-- The non-sparsity terms with non-zero weight, in term order. -/
def RegistrationEnergy.WeightedTerms (E : RegistrationEnergy K S) : List (EnergyTerm K S) :=
  E.Term.filter (fun t => !t.IsSparsityConstraint && decide (t.Weight ≠ 0))

/-- The first sparsity term in term order with non-zero weight, if there is one. -/
def RegistrationEnergy.FirstSparsityTerm (E : RegistrationEnergy K S) :
    Option (EnergyTerm K S) :=
  (E.Term.filter (fun t => t.IsSparsityConstraint && decide (t.Weight ≠ 0))).head?

/-- The result of `Gradient` without normalisation, stated as a sum rather
than as the loops of the source: the zeroed buffers, then the gradients of
`WeightedTerms` in order, then that of `FirstSparsityTerm`, then the
preconditioning of line 598. -/
def RegistrationEnergy.GradientInTermOrder (m : EnergyFunctions K S)
    (E : RegistrationEnergy K S) (gradient : List K) (step : K)
    (sgn_chg : Option (List Bool)) : List K × Option (List Bool) :=
  let step := if step ≤ 0 then E.StepLength else step
  let zeros := List.replicate E.NumberOfDOFs (0 : K) ++ gradient.drop E.NumberOfDOFs
  let trues := sgn_chg.map (fun s => List.replicate E.NumberOfDOFs true ++ s.drop E.NumberOfDOFs)
  let sum := E.WeightedTerms.foldl (fun g t => m.Gradient t step g) zeros
  let out := match E.FirstSparsityTerm with
    | some sparsity => m.SparsityGradient sparsity step sum trues
    | none => (sum, trues)
  if E.Preconditioning > 0 then (m.NormalizeGradient E.Preconditioning out.1, out.2) else out

end EnergyInWords

section EnergyExamples
variable (K : Type) [LinearOrderedField K]

/-- Term methods for the concrete examples: a term holds its gradient per
unit weight, which a gradient call adds, times the weight, to every entry;
the sparsity gradient also clears the sign flags; the other methods leave
their argument alone. -/
def ExampleEnergyFunctions : EnergyFunctions K K :=
  { Initialize := fun t => t
    Update := fun _ t => t
    ResetValue := fun t => t
    Gradient := fun t _ g => g.map (fun x => x + t.Weight * t.State)
    NormalizedGradient := fun t _ g => g.map (fun x => x + t.Weight * t.State)
    SparsityGradient := fun t _ g s =>
      (g.map (fun x => x + t.Weight * t.State), s.map (fun l => l.map (fun _ => false)))
    NormalizeGradient := fun _ g => g
    PreUpdateFunction := none }

/-- An energy over two active parameters with the given terms. -/
def ExampleEnergy (normalize : Bool) (terms : List (EnergyTerm K K)) : RegistrationEnergy K K :=
  { Term := terms
    TransformationChanged := false
    NumberOfDOFs := 2
    IsActive := fun _ => true
    NormalizeGradients := normalize
    Preconditioning := 0
    StepLength := 1 }

/-- Three sparsity terms of weight one. -/
def ThreeSparsityTerms : List (EnergyTerm K K) :=
  [⟨true, 1, 1⟩, ⟨true, 1, 1⟩, ⟨true, 1, 1⟩]

/-- A similarity term without weight, one of weight two, and two sparsity
terms of weight one. -/
def MixedTerms : List (EnergyTerm K K) :=
  [⟨false, 0, 5⟩, ⟨true, 1, 1⟩, ⟨false, 2, 3⟩, ⟨true, 1, 7⟩]

end EnergyExamples

/-! ## Data operations (Modules/Image/include/mirtk/DataOp.h) -/

/-- Type code `VTK_SHORT` of `vtkType.h`. -/
def VTK_SHORT : Int := 4

/-- Type code `VTK_INT` of `vtkType.h`. -/
def VTK_INT : Int := 6

/-- Type code `VTK_FLOAT` of `vtkType.h`. -/
def VTK_FLOAT : Int := 10

/-- Type code `VTK_DOUBLE` of `vtkType.h`. -/
def VTK_DOUBLE : Int := 11

/-- A `vtkDataArray`: its type code, its numbers of tuples and of components,
and its values in tuple order. -/
structure vtkDataArray (K : Type) where
  DataType : Int
  NumberOfTuples : Int
  NumberOfComponents : Int
  Values : List K
deriving DecidableEq, Repr

/-- An access to element `index` of an array of `size` elements allocated by
`new double[size]`, with `index` outside of `0 .. size - 1`. -/
structure OutOfBounds where
  index : Int
  size : Int
deriving DecidableEq, Repr

/-- The element type `T` at which a `template <class T>` member is instantiated. -/
inductive ValueType where
  | short
  | int
  | float
  | double
deriving DecidableEq, Repr

section VtkDataArray
variable {K : Type} [LinearOrderedField K]

/-- `data->GetTuple(i, tuple)`, with `tuple` the element `offset` of the buffer
`d` of `n` elements: the components of tuple `i` are written to `d[offset]`,
`d[offset + 1]`, ... -/
def vtkDataArray.GetTuple (data : vtkDataArray K) (i : Int) (n : Int) (d : List K) (offset : Int) :
    Except OutOfBounds (List K) :=
  (List.range data.NumberOfComponents.toNat).foldlM (fun d (comp : Nat) =>
    if 0 ≤ offset + comp ∧ offset + comp < n then
      Except.ok (d.set (offset + comp).toNat
        (data.Values.getD (i * data.NumberOfComponents + comp).toNat 0))
    else Except.error ⟨offset + comp, n⟩) d

/-- `data->SetTuple(i, tuple)`, with `tuple` the element `offset` of the buffer
`d` of `n` elements: the components of tuple `i` are read from `d[offset]`,
`d[offset + 1]`, ... and converted by `cast` to the value type of the array. -/
def vtkDataArray.SetTuple (cast : K → K) (data : vtkDataArray K) (i : Int) (n : Int) (d : List K)
    (offset : Int) : Except OutOfBounds (vtkDataArray K) :=
  (List.range data.NumberOfComponents.toNat).foldlM (fun (a : vtkDataArray K) (comp : Nat) =>
    if 0 ≤ offset + comp ∧ offset + comp < n then
      Except.ok { a with
        Values := a.Values.set (i * data.NumberOfComponents + comp).toNat
          (cast (d.getD (offset + comp).toNat 0)) }
    else Except.error ⟨offset + comp, n⟩) data

end VtkDataArray

namespace data

section DataOp
variable {K : Type} [LinearOrderedField K]

/-- `Op::Process(vtkDataArray *, bool *)` (lines 73-92).  `Process` is the pure
virtual `Process(int, double *, bool *)`, from the buffer before the call to
the buffer after it; `cast` converts a `double` to the value type with the
given type code.  The result is the array on return, or the first access
outside of the buffer `d`. -/
def Op.Process (Process : Int → List K → Option (List Bool) → List K) (cast : Int → K → K)
    (data : vtkDataArray K) (mask : Option (List Bool)) :
    Except OutOfBounds (vtkDataArray K) :=
  let n := wrapInt (data.NumberOfTuples * data.NumberOfComponents)
  if data.DataType = VTK_DOUBLE then
    Except.ok { data with Values := Process n data.Values mask }
  else
    let d : List K := List.replicate n.toNat 0
    let tuple : Int := 0
    match (List.range data.NumberOfTuples.toNat).foldlM
        (fun (s : List K × Int) (i : Nat) =>
          (data.GetTuple i n s.1 s.2).map (fun d => (d, s.2 + data.NumberOfComponents)))
        (d, tuple) with
    | Except.error e => Except.error e
    | Except.ok (d, tuple) =>
      let d := Process n d mask
      ((List.range data.NumberOfTuples.toNat).foldlM
        (fun (s : vtkDataArray K × Int) (i : Nat) =>
          (s.1.SetTuple (cast data.DataType) i n d s.2).map
            (fun a => (a, s.2 + data.NumberOfComponents)))
        (data, tuple)).map Prod.fst

/-- The member generated by `mirtkCalculateVtkDataArray1()` (lines 191-207);
`Calculate` is the `template <class T> double Calculate(int, const T *, const
bool *)` of the subclass. -/
def CalculateVtkDataArray1 (Calculate : ValueType → Int → List K → Option (List Bool) → K)
    (data : vtkDataArray K) (mask : Option (List Bool)) : Except ProcessExit K :=
  let p := data.Values
  let n := wrapInt (data.NumberOfTuples * data.NumberOfComponents)
  if data.DataType = VTK_SHORT then Except.ok (Calculate ValueType.short n p mask)
  else if data.DataType = VTK_INT then Except.ok (Calculate ValueType.int n p mask)
  else if data.DataType = VTK_FLOAT then Except.ok (Calculate ValueType.float n p mask)
  else if data.DataType = VTK_DOUBLE then Except.ok (Calculate ValueType.double n p mask)
  else Except.error ⟨1, "Unsupported vtkDataArray type: " ++ toString data.DataType⟩

/-- The member generated by `mirtkCalculateVtkDataArray2()` (lines 220-235);
`Calculate` is the `template <class T> void Calculate(double &, double &, int,
const T *, const bool *)` of the subclass, from the two values before the call
to the two values after it. -/
def CalculateVtkDataArray2
    (Calculate : ValueType → K × K → Int → List K → Option (List Bool) → K × K)
    (v : K × K) (data : vtkDataArray K) (mask : Option (List Bool)) :
    Except ProcessExit (K × K) :=
  let p := data.Values
  let n := wrapInt (data.NumberOfTuples * data.NumberOfComponents)
  if data.DataType = VTK_SHORT then Except.ok (Calculate ValueType.short v n p mask)
  else if data.DataType = VTK_INT then Except.ok (Calculate ValueType.int v n p mask)
  else if data.DataType = VTK_FLOAT then Except.ok (Calculate ValueType.float v n p mask)
  else if data.DataType = VTK_DOUBLE then Except.ok (Calculate ValueType.double v n p mask)
  else Except.error ⟨1, "Unsupported vtkDataArray type: " ++ toString data.DataType⟩

end DataOp

end data

section DataOpExamples
variable (K : Type) [LinearOrderedField K]

/-- A `float` array of two tuples of three components. -/
def FloatArray : vtkDataArray K := ⟨VTK_FLOAT, 2, 3, [1, 2, 3, 4, 5, 6]⟩

/-- The values of `FloatArray` as a `double` array. -/
def DoubleArray : vtkDataArray K := ⟨VTK_DOUBLE, 2, 3, [1, 2, 3, 4, 5, 6]⟩

/-- An array of type `VTK_UNSIGNED_CHAR` (type code 3). -/
def UnsignedCharArray : vtkDataArray K := ⟨3, 2, 1, [7, 8]⟩

/-- An operation that doubles every element. -/
def DoubleEveryElement : Int → List K → Option (List Bool) → List K :=
  fun _ d _ => d.map (fun x => 2 * x)

end DataOpExamples

/-! ## Closing of an image (Applications/src/close-image.cc) -/

/-- An image (`BaseImage`, `GenericImage<TVoxel>`): its size, its background
value once one is set, and its voxels.  The voxels are a total function of the
index: an access outside of the image is not modelled. -/
structure BaseImage (K V : Type) where
  X : Int
  Y : Int
  Z : Int
  BackgroundValue : Option K
  Voxel : Int → Int → Int → V

/-- The callees of `Close` whose definitions are not among the sources, as
parameters; `C` is `ConnectivityType`. -/
structure ImageFunctions (K V C : Type) where
  /-- `static_cast<double>(TVoxel)`, also within `GetAsDouble`. -/
  toDouble : V → K
  /-- `static_cast<TVoxel>(double)`, also within `PutAsDouble`. -/
  ofDouble : K → V
  /-- `BaseImage::BoundingBox(i1, j1, k1, i2, j2, k2)`. -/
  BoundingBox : BaseImage K V → Int × Int × Int × Int × Int × Int
  /-- `Dilate<TVoxel>(image, iterations, connectivity)`. -/
  Dilate : BaseImage K V → Int → C → BaseImage K V
  /-- `Erode<TVoxel>(image, iterations, connectivity)`. -/
  Erode : BaseImage K V → Int → C → BaseImage K V

section CloseImage
variable {K V C : Type} [Zero K] [Zero V]

/-- `image->PutBackgroundValueAsDouble(value)`. -/
def BaseImage.PutBackgroundValueAsDouble (image : BaseImage K V) (value : K) :
    BaseImage K V :=
  { image with BackgroundValue := some value }

/-- `GenericImage<TVoxel>(x, y, z)`: a new image, every voxel zero. -/
def GenericImage (K V : Type) [Zero V] (x y z : Int) : BaseImage K V :=
  { X := x, Y := y, Z := z, BackgroundValue := none, Voxel := fun _ _ _ => 0 }

/-- The assignment `image(i, j, k) = value`. -/
def BaseImage.Put (image : BaseImage K V) (i j k : Int) (value : V) : BaseImage K V :=
  { image with
    Voxel := fun a b c => if a = i ∧ b = j ∧ c = k then value else image.Voxel a b c }

/-- `image->GetAsDouble(i, j, k)`. -/
def BaseImage.GetAsDouble (fn : ImageFunctions K V C) (image : BaseImage K V)
    (i j k : Int) : K :=
  fn.toDouble (image.Voxel i j k)

/-- `image->PutAsDouble(i, j, k, value)`. -/
def BaseImage.PutAsDouble (fn : ImageFunctions K V C) (image : BaseImage K V)
    (i j k : Int) (value : K) : BaseImage K V :=
  image.Put i j k (fn.ofDouble value)

/-- The values of `i` in `for (int i = i1; i <= i2; ++i)`. -/
def forRange (i1 i2 : Int) : List Int :=
  (List.range (i2 + 1 - i1).toNat).map (fun (n : Nat) => i1 + n)

/-- `Close<TVoxel>` (lines 62-113).  The `int` variables are exact integers. -/
def Close (fn : ImageFunctions K V C) (image : BaseImage K V) (iterations : Int)
    (connectivity : C) : BaseImage K V :=
  let image := image.PutBackgroundValueAsDouble 0
  let (i1, j1, k1, i2, j2, k2) := fn.BoundingBox image
  let i1 := i1 - iterations
  let j1 := j1 - iterations
  let k1 := k1 - iterations
  let i2 := i2 + iterations
  let j2 := j2 + iterations
  let k2 := k2 + iterations
  if i1 < 0 ∨ i2 ≥ image.X ∨ j1 < 0 ∨ j2 ≥ image.Y ∨ k1 < 0 ∨ k2 ≥ image.Z then
    let padded : BaseImage K V := GenericImage K V (i2 - i1 + 1) (j2 - j1 + 1) (k2 - k1 + 1)
    let i1 := i1 + iterations
    let j1 := j1 + iterations
    let k1 := k1 + iterations
    let i2 := i2 - iterations
    let j2 := j2 - iterations
    let k2 := k2 - iterations
    let padded := (forRange k1 k2).foldl (fun padded k =>
      (forRange j1 j2).foldl (fun padded j =>
        (forRange i1 i2).foldl (fun (padded : BaseImage K V) i =>
          padded.Put (i - i1 + iterations) (j - j1 + iterations) (k - k1 + iterations)
            (fn.ofDouble (image.GetAsDouble fn i j k))) padded) padded) padded
    let padded := fn.Dilate padded iterations connectivity
    let padded := fn.Erode padded iterations connectivity
    (forRange k1 k2).foldl (fun image k =>
      (forRange j1 j2).foldl (fun image j =>
        (forRange i1 i2).foldl (fun (image : BaseImage K V) i =>
          image.PutAsDouble fn i j k (fn.toDouble
            (padded.Voxel (i - i1 + iterations) (j - j1 + iterations) (k - k1 + iterations))))
          image) image) image
  else
    let image := fn.Dilate image iterations connectivity
    fn.Erode image iterations connectivity

/-- Closing as the description of the tool words it ("first dilating and then
eroding"), on the image itself or on a padded copy: with the foreground
bounding box `i1 .. i2`, `j1 .. j2`, `k1 .. k2`, the image is dilated and then
eroded if the box grown by `iterations` lies inside the image; otherwise the
voxels of the box are copied to the middle of an image of zeros that is larger
by `iterations` on each side, that image is dilated and then eroded, and the
voxels of the box are replaced by those in its middle. -/
def CloseByDilationThenErosion (fn : ImageFunctions K V C) (image : BaseImage K V)
    (iterations : Int) (connectivity : C) : BaseImage K V :=
  let image : BaseImage K V := { image with BackgroundValue := some 0 }
  let (i1, j1, k1, i2, j2, k2) := fn.BoundingBox image
  if 0 ≤ i1 - iterations ∧ i2 + iterations < image.X ∧
      0 ≤ j1 - iterations ∧ j2 + iterations < image.Y ∧
      0 ≤ k1 - iterations ∧ k2 + iterations < image.Z then
    fn.Erode (fn.Dilate image iterations connectivity) iterations connectivity
  else
    let padded : BaseImage K V :=
      { X := i2 - i1 + 1 + 2 * iterations
        Y := j2 - j1 + 1 + 2 * iterations
        Z := k2 - k1 + 1 + 2 * iterations
        BackgroundValue := none
        Voxel := fun a b c =>
          if (iterations ≤ a ∧ a ≤ iterations + (i2 - i1)) ∧
              (iterations ≤ b ∧ b ≤ iterations + (j2 - j1)) ∧
              (iterations ≤ c ∧ c ≤ iterations + (k2 - k1)) then
            image.Voxel (a - iterations + i1) (b - iterations + j1) (c - iterations + k1)
          else 0 }
    let closed := fn.Erode (fn.Dilate padded iterations connectivity) iterations connectivity
    { image with
      Voxel := fun i j k =>
        if (i1 ≤ i ∧ i ≤ i2) ∧ (j1 ≤ j ∧ j ≤ j2) ∧ (k1 ≤ k ∧ k ≤ k2) then
          closed.Voxel (i - i1 + iterations) (j - j1 + iterations) (k - k1 + iterations)
        else image.Voxel i j k }

end CloseImage

section CloseExamples

/-- A row of five voxels with foreground at 1 and 3. -/
def RowImage : BaseImage ℚ Int :=
  { X := 5, Y := 1, Z := 1, BackgroundValue := none
    Voxel := fun i j k => if (i = 1 ∨ i = 3) ∧ j = 0 ∧ k = 0 then 1 else 0 }

/-- Image functions on rows for the concrete example: the bounding box of
`RowImage`, dilation and erosion by one voxel along the row, repeated
`iterations` times. -/
def RowFunctions : ImageFunctions ℚ Int Unit :=
  { toDouble := fun v => (v : ℚ)
    ofDouble := fun x => Int.floor x
    BoundingBox := fun _ => (1, 0, 0, 3, 0, 0)
    Dilate := fun image iterations _ =>
      Nat.iterate (fun (im : BaseImage ℚ Int) =>
        { im with
          Voxel := fun i j k =>
            if 0 ≤ i ∧ i < im.X then
              max (im.Voxel i j k)
                (max (if 0 ≤ i - 1 then im.Voxel (i - 1) j k else 0)
                  (if i + 1 < im.X then im.Voxel (i + 1) j k else 0))
            else im.Voxel i j k }) iterations.toNat image
    Erode := fun image iterations _ =>
      Nat.iterate (fun (im : BaseImage ℚ Int) =>
        { im with
          Voxel := fun i j k =>
            if 0 ≤ i ∧ i < im.X then
              min (im.Voxel i j k)
                (min (if 0 ≤ i - 1 then im.Voxel (i - 1) j k else 1)
                  (if i + 1 < im.X then im.Voxel (i + 1) j k else 1))
            else im.Voxel i j k }) iterations.toNat image }

end CloseExamples

section CloseRelations
variable {K V : Type}

/-- The image `result` is `image` with the voxels at the indices in `region`
replaced by those of `value`. -/
def BaseImage.IsOverwrite (image result : BaseImage K V) (region : Int → Int → Int → Prop)
    (value : Int → Int → Int → V) : Prop :=
  result.X = image.X ∧ result.Y = image.Y ∧ result.Z = image.Z ∧
  result.BackgroundValue = image.BackgroundValue ∧
  ∀ a b c, (region a b c → result.Voxel a b c = value a b c) ∧
    (¬ region a b c → result.Voxel a b c = image.Voxel a b c)

end CloseRelations

/-! ## Free-form deformation
(Modules/Transformation/include/mirtk/BSplineFreeFormTransformation3D.h) -/

/-- A `Matrix`: its size and its entries `m(r, c)`; an entry outside of the
matrix is not modelled. -/
structure Matrix (K : Type) where
  Rows : Int
  Cols : Int
  Entry : Int → Int → K

/-- What `EvaluateDerivativeOfJacobianWrtDOF` uses of the transformation: the
lookups `DOFToDimension`, `DOFToIndex` and `IndexToLattice` of the base class
and the functions `Kernel::B` and `Kernel::B_I`, none of them among the
sources. -/
structure BSplineFreeFormTransformation3D (K : Type) where
  DOFToDimension : Int → Int
  DOFToIndex : Int → Int
  IndexToLattice : Int → Int × Int × Int
  B : K → K
  B_I : K → K

section FreeFormDeformation
variable {K : Type} [LinearOrderedField K]

/-- `m.Initialize(rows, cols)`: the matrix of that size with every entry zero. -/
def Matrix.Initialize (rows cols : Int) : Matrix K :=
  { Rows := rows, Cols := cols, Entry := fun _ _ => 0 }

/-- The assignment `m(r, c) = value`. -/
def Matrix.Put (m : Matrix K) (r c : Int) (value : K) : Matrix K :=
  { m with Entry := fun a b => if a = r ∧ b = c then value else m.Entry a b }

/-- The entries of a matrix of three rows and three columns, row by row. -/
def Matrix.Rows3x3 (m : Matrix K) : List (List K) :=
  [[m.Entry 0 0, m.Entry 0 1, m.Entry 0 2],
   [m.Entry 1 0, m.Entry 1 1, m.Entry 1 2],
   [m.Entry 2 0, m.Entry 2 1, m.Entry 2 2]]

/-- `BSplineFreeFormTransformation3D::EvaluateDerivativeOfJacobianWrtDOF(dJdp,
dof, x, y, z)` (lines 404-419); the result is `dJdp`. -/
def BSplineFreeFormTransformation3D.EvaluateDerivativeOfJacobianWrtDOF
    (ffd : BSplineFreeFormTransformation3D K) (dof : Int) (x y z : K) : Matrix K :=
  let dim := ffd.DOFToDimension dof
  let (i, j, k) := ffd.IndexToLattice (ffd.DOFToIndex dof)
  let val :=
    if dim = 0 then ffd.B_I (x - i) * ffd.B (y - j) * ffd.B (z - k)
    else if dim = 1 then ffd.B (x - i) * ffd.B_I (y - j) * ffd.B (z - k)
    else ffd.B (x - i) * ffd.B (y - j) * ffd.B_I (z - k)
  let dJdp : Matrix K := Matrix.Initialize 3 3
  let dJdp := dJdp.Put 2 dim val
  let dJdp := dJdp.Put 1 dim val
  dJdp.Put 0 dim val

/-- The derivative along axis `c` of `B(x - i) B(y - j) B(z - k)`, with `B_I`
the first derivative of `B`. -/
def BSplineFreeFormTransformation3D.KernelDerivative
    (ffd : BSplineFreeFormTransformation3D K) (c : Int) (cp : Int × Int × Int) (x y z : K) : K :=
  if c = 0 then ffd.B_I (x - cp.1) * ffd.B (y - cp.2.1) * ffd.B (z - cp.2.2)
  else if c = 1 then ffd.B (x - cp.1) * ffd.B_I (y - cp.2.1) * ffd.B (z - cp.2.2)
  else ffd.B (x - cp.1) * ffd.B (y - cp.2.1) * ffd.B_I (z - cp.2.2)

/-- Entry `(r, c)` of the Jacobian of the displacement `u(x, y, z)` = sum over
the control points `(i, j, k)` of `B(x - i) B(y - j) B(z - k) * c_ijk`: the
derivative of component `r` of `u` along axis `c`, for the coefficients
`coefficient (i, j, k) r`. -/
def BSplineFreeFormTransformation3D.Jacobian (ffd : BSplineFreeFormTransformation3D K)
    (controlPoints : List (Int × Int × Int)) (coefficient : Int × Int × Int → Int → K)
    (x y z : K) (r c : Int) : K :=
  (controlPoints.map (fun cp => ffd.KernelDerivative c cp x y z * coefficient cp r)).sum

/-- The coefficients after parameter `dof`, the component `DOFToDimension dof`
of the coefficient of control point `IndexToLattice (DOFToIndex dof)`, is
increased by `t`. -/
def BSplineFreeFormTransformation3D.AddToDOF (ffd : BSplineFreeFormTransformation3D K)
    (coefficient : Int × Int × Int → Int → K) (dof : Int) (t : K) :
    Int × Int × Int → Int → K :=
  fun cp r =>
    if cp = ffd.IndexToLattice (ffd.DOFToIndex dof) ∧ r = ffd.DOFToDimension dof then
      coefficient cp r + t
    else coefficient cp r

/-- The derivative of the Jacobian with respect to parameter `dof` as the
documentation of `EvaluateDerivativeOfJacobianWrtDOF` words it: entry `(r, c)`
is the derivative with respect to the parameter of entry `(r, c)` of
`Jacobian`, which is `KernelDerivative c` at the control point of the
parameter in row `DOFToDimension dof` and zero in the other rows. -/
def BSplineFreeFormTransformation3D.DerivativeOfJacobianWrtDOF
    (ffd : BSplineFreeFormTransformation3D K) (dof : Int) (x y z : K) : Matrix K :=
  { Rows := 3
    Cols := 3
    Entry := fun r c =>
      if (0 ≤ r ∧ r < 3) ∧ (0 ≤ c ∧ c < 3) ∧ r = ffd.DOFToDimension dof then
        ffd.KernelDerivative c (ffd.IndexToLattice (ffd.DOFToIndex dof)) x y z
      else 0 }

end FreeFormDeformation

section FreeFormExamples
variable (K : Type) [LinearOrderedField K]

/-- The cubic B-spline, the kernel `B` of the concrete example. -/
def CubicBSpline (t : K) : K :=
  if |t| < 1 then 2 / 3 - |t| ^ 2 + |t| ^ 3 / 2
  else if |t| < 2 then (2 - |t|) ^ 3 / 6
  else 0

/-- The first derivative of `CubicBSpline`, the `B_I` of the concrete example. -/
def CubicBSplineDerivative (t : K) : K :=
  if |t| < 1 then (3 / 2 * |t| - 2) * t
  else if |t| < 2 then (if t < 0 then (2 - |t|) ^ 2 / 2 else -((2 - |t|) ^ 2 / 2))
  else 0

/-- A transformation over a lattice of two by two by two control points whose
parameters are numbered by dimension first: parameter `dof` is component
`dof / 8` of control point `dof % 8`, which is at `(n % 2, n / 2 % 2, n / 4)`. -/
def ExampleFFD : BSplineFreeFormTransformation3D K :=
  { DOFToDimension := fun dof => dof / 8
    DOFToIndex := fun dof => dof % 8
    IndexToLattice := fun n => (n % 2, n / 2 % 2, n / 4)
    B := CubicBSpline K
    B_I := CubicBSplineDerivative K }

/-- The control points of `ExampleFFD`. -/
def ExampleControlPoints : List (Int × Int × Int) :=
  [(0, 0, 0), (1, 0, 0), (0, 1, 0), (1, 1, 0), (0, 0, 1), (1, 0, 1), (0, 1, 1), (1, 1, 1)]

end FreeFormExamples

/-! ## Registration energy: `NumberOfActiveTerms`, `Value` and the call of
`_PreUpdateFunction` (RegistrationEnergy.cc) -/

section EnergyValue
variable {K S : Type} [LinearOrderedField K]

/-- `RegistrationEnergy::NumberOfActiveTerms` (lines 249-256). -/
def RegistrationEnergy.NumberOfActiveTerms (E : RegistrationEnergy K S) : Int :=
  E.Term.foldl (fun nactive t => if t.Weight ≠ 0 then addInt nactive 1 else nactive) 0

/-- The methods of a term that `Value` calls, as parameters:
`EnergyTerm::Value()`, whose result is `none` when the `double` is NaN and
comes with the term after the call, and `EnergyTerm::Name()`. -/
structure ValueFunctions (K S : Type) where
  Value : EnergyTerm K S → Option K × EnergyTerm K S
  Name : EnergyTerm K S → String

/-- The loop of `RegistrationEnergy::Value` (lines 470-479) from `_Term[i]`
on: the terms still to visit and `sum`; the result is `sum` and these terms
after the loop, or the exit of the process. -/
def ValueLoop (m : ValueFunctions K S) :
    Nat → List (EnergyTerm K S) → K → Except ProcessExit (K × List (EnergyTerm K S))
  | _, [], sum => Except.ok (sum, [])
  | i, t :: ts, sum =>
    let evaluated := if t.Weight ≠ 0 then m.Value t else (some 0, t)
    match evaluated.1 with
    | none =>
      let name := m.Name evaluated.2
      let name := if name.isEmpty then toString (i + 1) else name
      Except.error ⟨1, "RegistrationEnergy::Value: Value of term " ++ name ++ " is NaN!"⟩
    | some value =>
      (ValueLoop m (i + 1) ts (sum + value)).map (fun r => (r.1, evaluated.2 :: r.2))

/-- `RegistrationEnergy::Value()` (lines 465-483): the value returned and the
energy after the call, or the exit of the process. -/
def RegistrationEnergy.Value (m : ValueFunctions K S) (E : RegistrationEnergy K S) :
    Except ProcessExit (K × RegistrationEnergy K S) :=
  (ValueLoop m 0 E.Term 0).map (fun r => (r.1, { E with Term := r.2 }))

/-- The terms with non-zero weight, in term order. -/
def RegistrationEnergy.ActiveTerms (E : RegistrationEnergy K S) : List (EnergyTerm K S) :=
  E.Term.filter (fun t => decide (t.Weight ≠ 0))

/-- The sum, in term order, of `Value()` of the terms with non-zero weight (a
NaN counting as zero). -/
def RegistrationEnergy.SumOfValues (m : ValueFunctions K S) (E : RegistrationEnergy K S) : K :=
  (E.ActiveTerms.map (fun t => (m.Value t).1.getD 0)).foldl (fun sum value => sum + value) 0

/-- The energy after the call of `_PreUpdateFunction` at the start of `Update`
(lines 337-341): the energy itself when no function is set. -/
def RegistrationEnergy.PreUpdate (m : EnergyFunctions K S) (gradient : Bool)
    (E : RegistrationEnergy K S) : RegistrationEnergy K S :=
  match m.PreUpdateFunction with
  | some preupdate => preupdate gradient E
  | none => E

end EnergyValue

section EnergyValueExamples
variable (K : Type) [LinearOrderedField K]

/-- Term methods that count in the state of a term: `Update` adds one,
`ResetValue` adds ten. -/
def CountingEnergyFunctions : EnergyFunctions K K :=
  { ExampleEnergyFunctions K with
    Update := fun _ t => { t with State := t.State + 1 }
    ResetValue := fun t => { t with State := t.State + 10 } }

/-- Value methods for the concrete examples: the value of a term is its weight
times its state, NaN for a negative state, and an evaluation adds a hundred to
the state; terms have no name. -/
def ExampleValueFunctions : ValueFunctions K K :=
  { Value := fun t =>
      (if t.State < 0 then none else some (t.Weight * t.State),
        { t with State := t.State + 100 })
    Name := fun _ => "" }

/-- Terms of which the third has the value NaN. -/
def TermsWithNaN : List (EnergyTerm K K) :=
  [⟨false, 0, -1⟩, ⟨false, 2, 3⟩, ⟨true, 1, -7⟩, ⟨false, 1, -1⟩]

end EnergyValueExamples

/-! ## Helper lemmas -/

section FieldLemmas
set_option linter.unusedSectionVars false
variable {K : Type} [LinearOrderedField K]

theorem addInt_one_of_IsInt {n : Int} (h : IsInt (n + 1)) : addInt n 1 = n + 1 := by
  unfold IsInt INT_MIN INT_MAX at h
  unfold addInt wrapInt
  omega

theorem foldl_eq_self {α β : Type} (step : α → β → α) (l : List β) (s : α)
    (h : ∀ x ∈ l, step s x = s) : l.foldl step s = s := by
  induction l with
  | nil => rfl
  | cons x xs ih =>
    rw [List.foldl_cons, h x (List.mem_cons_self _ _)]
    exact ih (fun y hy => h y (List.mem_cons_of_mem _ hy))

theorem lerp_mem_range {a b w : K} (hab : a ≤ b) (h0 : 0 ≤ w) (h1 : w ≤ 1) :
    a ≤ lerp a b w ∧ lerp a b w ≤ b := by
  unfold lerp
  have hba : 0 ≤ b - a := sub_nonneg.mpr hab
  constructor
  · nlinarith [mul_nonneg h0 hba]
  · nlinarith [mul_nonneg (sub_nonneg.mpr h1) hba]

theorem getD_map_lerp (f : MathFunctions K) (lo hi : K) (a : List K) (ptId : Nat)
    (hp : ptId < a.length) :
    (a.map (fun v => lerp lo hi (BlendWeight f a v))).getD ptId 0
      = lerp lo hi (BlendWeight f a (a.getD ptId 0)) := by
  simp [List.getD_eq_getElem?_getD, List.getElem?_eq_getElem hp]

theorem getD_map_bounds (g : K → K) (lo hi : K) (hlo : 0 ≤ lo) (hlh : lo ≤ hi)
    (hg : ∀ v, lo ≤ g v ∧ g v ≤ hi) (a : List K) (i : Nat) :
    0 ≤ (a.map g).getD i 0 ∧ (a.map g).getD i 0 ≤ hi := by
  rw [List.getD_eq_getElem?_getD]
  by_cases hi' : i < a.length
  · simp only [List.getElem?_map, List.getElem?_eq_getElem hi', Option.map_some',
      Option.getD_some]
    exact ⟨le_trans hlo (hg _).1, (hg _).2⟩
  · have : (a.map g)[i]? = none := by
      rw [List.getElem?_eq_none_iff]; simpa using hi'
    simp only [this, Option.getD_none]
    exact ⟨le_refl _, le_trans hlo hlh⟩

theorem sq_mean_le (x y hi : K) (hx : 0 ≤ x ∧ x ≤ hi) (hy : 0 ≤ y ∧ y ≤ hi) :
    (x + y) / 2 * ((x + y) / 2) ≤ hi * hi := by
  have h0 : 0 ≤ (x + y) / 2 := by linarith [hx.1, hy.1]
  have h1 : (x + y) / 2 ≤ hi := by linarith [hx.2, hy.2]
  exact mul_self_le_mul_self h0 h1

theorem Distance2BetweenPoints_eq_zero {p q : Point K} (h : Distance2BetweenPoints p q = 0) :
    p = q := by
  unfold Distance2BetweenPoints Point.dot Point.sub at h
  simp only at h
  have hx : 0 ≤ (p.x - q.x) * (p.x - q.x) := mul_self_nonneg _
  have hy : 0 ≤ (p.y - q.y) * (p.y - q.y) := mul_self_nonneg _
  have hz : 0 ≤ (p.z - q.z) * (p.z - q.z) := mul_self_nonneg _
  have ex : (p.x - q.x) * (p.x - q.x) = 0 := by linarith
  have ey : (p.y - q.y) * (p.y - q.y) = 0 := by linarith
  have ez : (p.z - q.z) * (p.z - q.z) = 0 := by linarith
  cases p; cases q
  simp only [Point.mk.injEq]
  exact ⟨sub_eq_zero.mp (mul_self_eq_zero.mp ex), sub_eq_zero.mp (mul_self_eq_zero.mp ey),
    sub_eq_zero.mp (mul_self_eq_zero.mp ez)⟩

theorem getVertex_append_old (pts ext : List (Vertex K)) (polys : List (Option Triangle))
    (p : Nat) (hp : p < pts.length) :
    PolyData.GetVertex ⟨pts ++ ext, polys⟩ p = PolyData.GetVertex ⟨pts, []⟩ p := by
  simp [PolyData.GetVertex, List.getD_eq_getElem?_getD, List.getElem?_append_left hp]

theorem getVertex_append_new (pts ext : List (Vertex K)) (polys : List (Option Triangle))
    (k : Nat) :
    PolyData.GetVertex ⟨pts ++ ext, polys⟩ (pts.length + k) = PolyData.GetVertex ⟨ext, []⟩ k := by
  simp [PolyData.GetVertex, List.getD_eq_getElem?_getD, List.getElem?_append_right]

end FieldLemmas

section AreaLemmas

theorem sqrt_sq_mul (q N : ℝ) (hq : 0 ≤ q) : Real.sqrt (q ^ 2 * N) = q * Real.sqrt N := by
  rw [Real.sqrt_mul (sq_nonneg q), Real.sqrt_sq hq]

theorem TriangleArea_of_scaled {a b c a' b' c' : Point ℝ} (q : ℝ) (hq : 0 ≤ q)
    (h : TriangleNormal2 a' b' c' = q ^ 2 * TriangleNormal2 a b c) :
    TriangleArea Real.sqrt a' b' c' = q * TriangleArea Real.sqrt a b c := by
  unfold TriangleArea
  rw [h, sqrt_sq_mul _ _ hq]
  ring

/-- Areas of the triangles cut from `a b c` by the midpoints of its edges, as
fractions of the area of `a b c`. -/
theorem subtriangle_areas (a b c : Point ℝ) :
    TriangleArea Real.sqrt a (Midpoint a b) c = 1 / 2 * TriangleArea Real.sqrt a b c
    ∧ TriangleArea Real.sqrt (Midpoint a b) b c = 1 / 2 * TriangleArea Real.sqrt a b c
    ∧ TriangleArea Real.sqrt (Midpoint a b) b (Midpoint b c)
        = 1 / 4 * TriangleArea Real.sqrt a b c
    ∧ TriangleArea Real.sqrt (Midpoint a b) (Midpoint b c) c
        = 1 / 4 * TriangleArea Real.sqrt a b c
    ∧ TriangleArea Real.sqrt a (Midpoint a b) (Midpoint b c)
        = 1 / 4 * TriangleArea Real.sqrt a b c
    ∧ TriangleArea Real.sqrt a (Midpoint b c) c = 1 / 2 * TriangleArea Real.sqrt a b c
    ∧ TriangleArea Real.sqrt a (Midpoint a b) (Midpoint c a)
        = 1 / 4 * TriangleArea Real.sqrt a b c
    ∧ TriangleArea Real.sqrt (Midpoint c a) (Midpoint b c) c
        = 1 / 4 * TriangleArea Real.sqrt a b c
    ∧ TriangleArea Real.sqrt (Midpoint a b) (Midpoint b c) (Midpoint c a)
        = 1 / 4 * TriangleArea Real.sqrt a b c := by
  refine ⟨?_, ?_, ?_, ?_, ?_, ?_, ?_, ?_, ?_⟩ <;>
    apply TriangleArea_of_scaled _ (by norm_num) <;>
    simp only [TriangleNormal2, Midpoint, Point.sub, Point.cross, Point.dot] <;>
    ring

end AreaLemmas

section InitializeLemmas
set_option linter.unusedSectionVars false
variable {K : Type} [LinearOrderedField K]

/-- What a successful `Initialize` establishes. -/
theorem Initialize_eq_some {f : MathFunctions K} {r0 r : PolyDataRemeshing K}
    (h : r0.Initialize f = some r) :
    0 ≤ r0.MinEdgeLength ∧ r0.MinEdgeLength ≤ r0.MaxEdgeLength
    ∧ r.toCounters = Counters.zero ∧ r.Output = r0.Output
    ∧ r.Transformation = r0.Transformation
    ∧ r.MinEdgeLength = r0.MinEdgeLength ∧ r.MaxEdgeLength = r0.MaxEdgeLength
    ∧ r.MinEdgeLengthSquared = r0.MinEdgeLength * r0.MinEdgeLength
    ∧ r.MaxEdgeLengthSquared = r0.MaxEdgeLength * r0.MaxEdgeLength
    ∧ r.MinEdgeLengthArray = (r0.AdaptiveEdgeLengthArray.map (fun a =>
        a.map (fun v => lerp r0.MinEdgeLength r0.MaxEdgeLength (BlendWeight f a v))))
    ∧ r.MaxEdgeLengthArray = (r0.AdaptiveEdgeLengthArray.map (fun a =>
        a.map (fun v => lerp r0.MinEdgeLength r0.MaxEdgeLength (BlendWeight f a v)))) := by
  unfold PolyDataRemeshing.Initialize at h
  split at h
  · exact absurd h (by simp)
  · rename_i hc
    simp only [not_or, not_lt] at hc
    have hr := (Option.some.inj h).symm
    subst hr
    refine ⟨hc.1, hc.2.2, ?_⟩
    unfold PolyDataRemeshing.InitializeEdgeLengthRange
    cases ha : r0.AdaptiveEdgeLengthArray <;> simp [ha]

/-- After `Initialize`, with a logistic function that takes values in `[0, 1]`,
no squared edge length bound exceeds the square of the global maximum. -/
theorem Initialize_SquaredEdgeLength_le {f : MathFunctions K} {r0 r : PolyDataRemeshing K}
    (h : r0.Initialize f = some r) (hlog : ∀ t, 0 ≤ f.logistic t ∧ f.logistic t ≤ 1)
    (ptId1 ptId2 : Nat) :
    r.SquaredMinEdgeLength ptId1 ptId2 ≤ r.MaxEdgeLength * r.MaxEdgeLength
    ∧ r.SquaredMaxEdgeLength ptId1 ptId2 ≤ r.MaxEdgeLength * r.MaxEdgeLength
    ∧ 0 ≤ r.MaxEdgeLength := by
  obtain ⟨h0, hle, _, _, _, hmin, hmax, hmin2, hmax2, hamin, hamax⟩ := Initialize_eq_some h
  have hmax0 : 0 ≤ r.MaxEdgeLength := by rw [hmax]; exact le_trans h0 hle
  unfold PolyDataRemeshing.SquaredMinEdgeLength PolyDataRemeshing.SquaredMaxEdgeLength
  cases ha : r0.AdaptiveEdgeLengthArray with
  | none =>
    simp only [ha, Option.map_none'] at hamin hamax
    simp only [hamin, hamax, hmin2, hmax2, hmax]
    exact ⟨mul_self_le_mul_self h0 hle, le_refl _, le_trans h0 hle⟩
  | some a =>
    simp only [ha, Option.map_some'] at hamin hamax
    simp only [hamin, hamax, hmax]
    have hb := getD_map_bounds
      (fun v => lerp r0.MinEdgeLength r0.MaxEdgeLength (BlendWeight f a v))
      r0.MinEdgeLength r0.MaxEdgeLength h0 hle
      (fun v => lerp_mem_range hle (hlog _).1 (hlog _).2) a
    exact ⟨sq_mean_le _ _ _ (hb ptId1) (hb ptId2), sq_mean_le _ _ _ (hb ptId1) (hb ptId2),
      le_trans h0 hle⟩

end InitializeLemmas

section PassLemmas
set_option linter.unusedSectionVars false
variable {K : Type} [LinearOrderedField K]

theorem mem_LiveCells_of_GetCell {m : PolyData K} {cellId : Nat} {t : Triangle}
    (h : m.GetCell cellId = some t) : t ∈ m.LiveCells := by
  unfold PolyData.GetCell at h
  unfold PolyData.LiveCells
  rw [List.mem_filterMap]
  refine ⟨some t, ?_, rfl⟩
  rw [List.getD_eq_getElem?_getD] at h
  cases hg : m.polys[cellId]? with
  | none => simp [hg] at h
  | some c =>
    simp only [hg, Option.getD_some] at h
    subst h
    exact List.getElem?_mem hg

theorem MeltCell_of_no_short_edge (ops : LocalOperations K) (r : PolyDataRemeshing K)
    (cellId : Nat) (t : Triangle)
    (h : ∀ e ∈ t.edges, r.IsShortEdge e.1 e.2 = false) :
    r.MeltCell ops cellId t = (false, r, []) := by
  have hany : t.edges.any (fun e => r.MayMeltEdge e.1 e.2) = false := by
    rw [List.any_eq_false]
    intro e he
    simp [PolyDataRemeshing.MayMeltEdge, h e he]
  have hfil : t.edges.filter (fun e => r.IsShortEdge e.1 e.2) = [] := by
    rw [List.filter_eq_nil_iff]
    intro e he
    simp [h e he]
  simp [PolyDataRemeshing.MeltCell, hany, hfil]

theorem MeltingLoop_of_no_short_edge (ops : LocalOperations K) (r : PolyDataRemeshing K)
    (h : ∀ t ∈ r.Output.LiveCells, ∀ e ∈ t.edges, r.IsShortEdge e.1 e.2 = false) :
    ∀ (queue : List Nat) (fuel : Nat), queue.length ≤ fuel →
      PolyDataRemeshing.MeltingLoop ops fuel queue r = some r := by
  intro queue
  induction queue with
  | nil => intro fuel _; cases fuel <;> rfl
  | cons c q ih =>
    intro fuel hf
    cases fuel with
    | zero => simp at hf
    | succ n =>
      have hq : q.length ≤ n := by simpa using hf
      unfold PolyDataRemeshing.MeltingLoop
      cases hc : r.Output.GetCell c with
      | none => simpa using ih n hq
      | some t =>
        simp only [MeltCell_of_no_short_edge ops r c t (h t (mem_LiveCells_of_GetCell hc))]
        simpa using ih n hq

theorem MeltingQueue_length_le (f : MathFunctions K) (r : PolyDataRemeshing K) :
    (r.MeltingQueue f).length ≤ r.Output.polys.length := by
  unfold PolyDataRemeshing.MeltingQueue
  rw [List.length_insertionSort]
  calc _ ≤ (List.range r.Output.polys.length).length := List.length_filter_le _ _
    _ = _ := List.length_range _

theorem MeltingOfNodes_of_no_node (ops : LocalOperations K) (r : PolyDataRemeshing K)
    (h : r.MeltNodes = true → ∀ ptId, ptId < r.Output.points.length →
      ¬ (r.NodeConnectivity ptId = 3 ∧ ops.MeltNodeAccepted r ptId = true)) :
    r.MeltingOfNodes ops = r := by
  unfold PolyDataRemeshing.MeltingOfNodes
  split
  · rename_i hm
    apply foldl_eq_self
    intro p hp
    unfold PolyDataRemeshing.MeltNodeAt
    rw [if_neg (h hm p (List.mem_range.mp hp))]
  · rfl

theorem Melting_of_nothing_to_melt (f : MathFunctions K) (ops : LocalOperations K)
    (r : PolyDataRemeshing K) (fuel : Nat) (hfuel : r.Output.polys.length ≤ fuel)
    (h : ∀ t ∈ r.Output.LiveCells, ∀ e ∈ t.edges, r.IsShortEdge e.1 e.2 = false)
    (hn : r.MeltNodes = true → ∀ ptId, ptId < r.Output.points.length →
      ¬ (r.NodeConnectivity ptId = 3 ∧ ops.MeltNodeAccepted r ptId = true)) :
    r.Melting f ops fuel = some r := by
  unfold PolyDataRemeshing.Melting PolyDataRemeshing.MeltingOfCells
  rw [MeltingLoop_of_no_short_edge ops r h _ _ (le_trans (MeltingQueue_length_le f r) hfuel)]
  simp [MeltingOfNodes_of_no_node ops r hn]

theorem InvertAt_of_not_accepted (ops : LocalOperations K)
    (accepted : PolyDataRemeshing K → Nat → Nat → Nat → Nat → Bool)
    (r : PolyDataRemeshing K) (cellId i : Nat)
    (h : ∀ t neighborId, r.Output.GetCell cellId = some t →
      r.GetCellEdgeNeighbor cellId (t.edge i).1 (t.edge i).2 = some neighborId →
      accepted r cellId neighborId (t.edge i).1 (t.edge i).2 = false) :
    r.InvertAt ops accepted cellId i = r := by
  unfold PolyDataRemeshing.InvertAt
  cases hc : r.Output.GetCell cellId with
  | none => rfl
  | some t =>
    cases hnb : r.GetCellEdgeNeighbor cellId (t.edge i).1 (t.edge i).2 with
    | none => simp only [hnb]
    | some nb => simp [hnb, h t nb hc hnb]

theorem InvertAll_of_not_accepted (ops : LocalOperations K)
    (accepted : PolyDataRemeshing K → Nat → Nat → Nat → Nat → Bool)
    (r : PolyDataRemeshing K)
    (h : ∀ cellId i t neighborId, r.Output.GetCell cellId = some t →
      r.GetCellEdgeNeighbor cellId (t.edge i).1 (t.edge i).2 = some neighborId →
      accepted r cellId neighborId (t.edge i).1 (t.edge i).2 = false) :
    r.InvertAll ops accepted = r := by
  unfold PolyDataRemeshing.InvertAll
  apply foldl_eq_self
  intro c _
  apply foldl_eq_self
  intro i _
  exact InvertAt_of_not_accepted ops accepted r c i (h c i)

theorem SubdivideCell_of_no_split (r : PolyDataRemeshing K) (alt : Nat → Nat → Nat → Bool)
    (cellId : Nat) (t : Triangle) (o : SubdivisionOutput K)
    (h : ∀ e ∈ t.edges, r.SplitEdge e.1 e.2 = false) :
    r.SubdivideCell alt cellId t o = { o with polys := o.polys ++ [t] } := by
  have h1 := h (t.p1, t.p2) (by simp [Triangle.edges])
  have h2 := h (t.p2, t.p3) (by simp [Triangle.edges])
  have h3 := h (t.p3, t.p1) (by simp [Triangle.edges])
  simp only at h1 h2 h3
  simp [PolyDataRemeshing.SubdivideCell, h1, h2, h3]

theorem SubdivideCells_of_no_split (r : PolyDataRemeshing K) (alt : Nat → Nat → Nat → Bool) :
    ∀ (cells : List (Option Triangle)) (cellId : Nat) (o : SubdivisionOutput K),
      (∀ t, some t ∈ cells → ∀ e ∈ t.edges, r.SplitEdge e.1 e.2 = false) →
      PolyDataRemeshing.SubdivideCells r alt cells cellId o
        = { o with polys := o.polys ++ cells.filterMap id } := by
  intro cells
  induction cells with
  | nil => intro cellId o _; simp [PolyDataRemeshing.SubdivideCells]
  | cons c cs ih =>
    intro cellId o h
    have hcs : ∀ t, some t ∈ cs → ∀ e ∈ t.edges, r.SplitEdge e.1 e.2 = false :=
      fun t ht => h t (List.mem_cons_of_mem _ ht)
    cases c with
    | none =>
      simp only [PolyDataRemeshing.SubdivideCells]
      rw [ih _ _ hcs]
      simp
    | some t =>
      simp only [PolyDataRemeshing.SubdivideCells]
      rw [SubdivideCell_of_no_split r alt cellId t o (h t (List.mem_cons_self _ _)), ih _ _ hcs]
      simp

theorem Subdivision_of_no_split (r : PolyDataRemeshing K) (alt : Nat → Nat → Nat → Bool)
    (h : ∀ t ∈ r.Output.LiveCells, ∀ e ∈ t.edges, r.SplitEdge e.1 e.2 = false) :
    r.Subdivision alt = { r with Output := ⟨r.Output.points, r.Output.LiveCells.map some⟩ } := by
  unfold PolyDataRemeshing.Subdivision
  rw [SubdivideCells_of_no_split r alt r.Output.polys 0 _ (fun t ht => h t (by
    unfold PolyData.LiveCells
    rw [List.mem_filterMap]
    exact ⟨some t, ht, rfl⟩))]
  simp [PolyData.LiveCells]

theorem LiveCells_map_some (points : List (Vertex K)) (l : List Triangle) :
    PolyData.LiveCells (⟨points, l.map some⟩ : PolyData K) = l := by
  unfold PolyData.LiveCells
  induction l with
  | nil => rfl
  | cons x xs ih => simp

theorem Inversion_of_no_flip (ops : LocalOperations K) (r : PolyDataRemeshing K)
    (hlong : r.InvertTrianglesSharingOneLongEdge = true →
      ∀ cellId i t neighborId, r.Output.GetCell cellId = some t →
        r.GetCellEdgeNeighbor cellId (t.edge i).1 (t.edge i).2 = some neighborId →
        PolyDataRemeshing.LongEdgeFlipAccepted ops r cellId neighborId (t.edge i).1 (t.edge i).2
          = false)
    (hheight : r.InvertTrianglesToIncreaseMinHeight = true →
      ∀ cellId i t neighborId, r.Output.GetCell cellId = some t →
        r.GetCellEdgeNeighbor cellId (t.edge i).1 (t.edge i).2 = some neighborId →
        ops.FlipIncreasesMinHeight r cellId neighborId (t.edge i).1 (t.edge i).2 = false) :
    r.Inversion ops = r := by
  have e1 : (if r.InvertTrianglesSharingOneLongEdge then
      r.InversionOfTrianglesSharingOneLongEdge ops else r) = r := by
    split
    · rename_i hf
      exact InvertAll_of_not_accepted ops _ r (hlong hf)
    · rfl
  unfold PolyDataRemeshing.Inversion
  simp only [e1]
  split
  · rename_i hf
    exact InvertAll_of_not_accepted ops _ r (hheight hf)
  · rfl

theorem Triangle.edge_mem_edges (t : Triangle) (i : Nat) : t.edge i ∈ t.edges := by
  unfold Triangle.edge Triangle.edges
  split <;> simp

end PassLemmas

section ExecuteLemmas
set_option linter.unusedSectionVars false
variable {K : Type} [LinearOrderedField K]

/-- `Execute` on a state in which no local operator has anything to do: the
result is the state itself, with the deleted-cell markers dropped from the
cell array. -/
theorem Execute_of_nothing_to_do (f : MathFunctions K) (ops : LocalOperations K)
    (r : PolyDataRemeshing K) (fuel : Nat)
    (hrange : ∀ t ∈ r.Output.LiveCells, ∀ e ∈ t.edges,
      r.SquaredMinEdgeLength e.1 e.2 ≤ r.EdgeLength2 e.1 e.2
      ∧ r.EdgeLength2 e.1 e.2 ≤ r.SquaredMaxEdgeLength e.1 e.2)
    (hnode : r.MeltNodes = true → ∀ ptId, ptId < r.Output.points.length →
      ¬ (r.NodeConnectivity ptId = 3 ∧ ops.MeltNodeAccepted r ptId = true))
    (hflip : r.InvertTrianglesToIncreaseMinHeight = true →
      ∀ cellId i t neighborId, r.Output.GetCell cellId = some t →
        r.GetCellEdgeNeighbor cellId (t.edge i).1 (t.edge i).2 = some neighborId →
        ops.FlipIncreasesMinHeight r cellId neighborId (t.edge i).1 (t.edge i).2 = false)
    (hfeature : ∀ t ∈ r.Output.LiveCells, ∀ e ∈ t.edges,
      ¬ (r.IsFeatureEdge r.MaxFeatureAngleCos e.1 e.2 = true
        ∧ 4 * r.MinEdgeLengthSquared ≤ r.EdgeLength2 e.1 e.2))
    (hfuel : r.Output.polys.length ≤ fuel) :
    r.Execute f ops fuel
      = some { r with Output := ⟨r.Output.points, r.Output.LiveCells.map some⟩ } := by
  have hshort : ∀ t ∈ r.Output.LiveCells, ∀ e ∈ t.edges, r.IsShortEdge e.1 e.2 = false := by
    intro t ht e he
    simp [PolyDataRemeshing.IsShortEdge, (hrange t ht e he).1]
  have hsplit : ∀ t ∈ r.Output.LiveCells, ∀ e ∈ t.edges, r.SplitEdge e.1 e.2 = false := by
    intro t ht e he
    have h1 := (hrange t ht e he).2
    have h2 := hfeature t ht e he
    unfold PolyDataRemeshing.SplitEdge
    rw [Bool.or_eq_false_iff]
    constructor
    · simpa using h1
    · rw [Bool.and_eq_false_iff]
      by_cases hf : r.IsFeatureEdge r.MaxFeatureAngleCos e.1 e.2 = true
      · right
        have := fun hc => h2 ⟨hf, hc⟩
        simpa using this
      · left
        simpa using hf
  have hlong : r.InvertTrianglesSharingOneLongEdge = true →
      ∀ cellId i t neighborId, r.Output.GetCell cellId = some t →
        r.GetCellEdgeNeighbor cellId (t.edge i).1 (t.edge i).2 = some neighborId →
        PolyDataRemeshing.LongEdgeFlipAccepted ops r cellId neighborId (t.edge i).1 (t.edge i).2
          = false := by
    intro _ cellId i t nb hc _
    have h1 := (hrange t (mem_LiveCells_of_GetCell hc) (t.edge i) (t.edge_mem_edges i)).2
    simp [PolyDataRemeshing.LongEdgeFlipAccepted, h1]
  unfold PolyDataRemeshing.Execute
  rw [Melting_of_nothing_to_melt f ops r fuel hfuel hshort hnode]
  simp only [Option.map_some', Inversion_of_no_flip ops r hlong hflip]
  rw [Subdivision_of_no_split r _ hsplit]

end ExecuteLemmas

section ExampleLemmas
set_option linter.unusedSectionVars false
variable {K : Type} [LinearOrderedField K]

theorem ExampleFilter_Initialize (lo hi : K) (mesh : PolyData K) (h0 : 0 ≤ lo) (hle : lo ≤ hi) :
    (ExampleFilter K lo hi mesh).Initialize (ExampleFunctions K)
      = some (ExampleFilter K lo hi mesh) := by
  have hc : ¬ ((ExampleFilter K lo hi mesh).MinEdgeLength < 0
      ∨ (ExampleFilter K lo hi mesh).MaxEdgeLength < 0
      ∨ (ExampleFilter K lo hi mesh).MaxEdgeLength < (ExampleFilter K lo hi mesh).MinEdgeLength) := by
    simp only [ExampleFilter, not_or, not_lt]
    exact ⟨h0, le_trans h0 hle, hle⟩
  unfold PolyDataRemeshing.Initialize
  rw [if_neg hc]
  simp only [PolyDataRemeshing.InitializeEdgeLengthRange, ExampleFilter, ExampleFunctions]
  norm_num

end ExampleLemmas

/-! ## Theorems about the counters -/

/-- C1: whenever the sum of the seven operation counters is representable as an
`int`, `NumberOfChanges()` returns exactly that sum
(melted nodes + melted edges + melted cells + inversions + bisections +
trisections + quadsections). -/
theorem NumberOfChanges_eq_sum (c : Counters)
    (h : IsInt (c.NumberOfMeltedNodes + c.NumberOfMeltedEdges + c.NumberOfMeltedCells
      + c.NumberOfInversions + c.NumberOfBisections + c.NumberOfTrisections
      + c.NumberOfQuadsections)) :
    NumberOfChanges c
      = c.NumberOfMeltedNodes + c.NumberOfMeltedEdges + c.NumberOfMeltedCells
        + c.NumberOfInversions + c.NumberOfBisections + c.NumberOfTrisections
        + c.NumberOfQuadsections := by
  unfold IsInt INT_MIN INT_MAX at h
  unfold NumberOfChanges NumberOfMeltings NumberOfSubdivisions addInt wrapInt
  omega

/-- Witness for C1: counters 1, 2, 3, 4, 5, 6, 7 give 28 changes. -/
theorem NumberOfChanges_eq_sum_witness :
    NumberOfChanges ⟨1, 2, 3, 4, 5, 6, 7⟩ = 1 + 2 + 3 + 4 + 5 + 6 + 7 :=
  NumberOfChanges_eq_sum ⟨1, 2, 3, 4, 5, 6, 7⟩ (by decide)

/-- C2: when all seven counters are non-negative and their sum is representable
as an `int`, `NumberOfChanges() == 0` holds exactly when every counter is zero,
and exactly when `NumberOfMeltings()`, `NumberOfInversions()` and
`NumberOfSubdivisions()` are all zero. -/
theorem NumberOfChanges_eq_zero_iff (c : Counters)
    (hn : 0 ≤ c.NumberOfMeltedNodes) (he : 0 ≤ c.NumberOfMeltedEdges)
    (hc : 0 ≤ c.NumberOfMeltedCells) (hi : 0 ≤ c.NumberOfInversions)
    (hb : 0 ≤ c.NumberOfBisections) (ht : 0 ≤ c.NumberOfTrisections)
    (hq : 0 ≤ c.NumberOfQuadsections)
    (h : IsInt (c.NumberOfMeltedNodes + c.NumberOfMeltedEdges + c.NumberOfMeltedCells
      + c.NumberOfInversions + c.NumberOfBisections + c.NumberOfTrisections
      + c.NumberOfQuadsections)) :
    (NumberOfChanges c = 0 ↔
      (c.NumberOfMeltedNodes = 0 ∧ c.NumberOfMeltedEdges = 0 ∧ c.NumberOfMeltedCells = 0
        ∧ c.NumberOfInversions = 0 ∧ c.NumberOfBisections = 0
        ∧ c.NumberOfTrisections = 0 ∧ c.NumberOfQuadsections = 0))
    ∧ (NumberOfChanges c = 0 ↔
      (NumberOfMeltings c = 0 ∧ c.NumberOfInversions = 0 ∧ NumberOfSubdivisions c = 0)) := by
  unfold IsInt INT_MIN INT_MAX at h
  unfold NumberOfChanges NumberOfMeltings NumberOfSubdivisions addInt wrapInt
  omega

/-- Witness for C2 at the all-zero state and at a state with one bisection. -/
theorem NumberOfChanges_eq_zero_iff_witness :
    NumberOfChanges ⟨0, 0, 0, 0, 0, 0, 0⟩ = 0 ∧ NumberOfChanges ⟨0, 0, 0, 0, 1, 0, 0⟩ ≠ 0 := by
  have h0 := NumberOfChanges_eq_zero_iff ⟨0, 0, 0, 0, 0, 0, 0⟩
    (by decide) (by decide) (by decide) (by decide) (by decide) (by decide) (by decide)
    (by decide)
  have h1 := NumberOfChanges_eq_zero_iff ⟨0, 0, 0, 0, 1, 0, 0⟩
    (by decide) (by decide) (by decide) (by decide) (by decide) (by decide) (by decide)
    (by decide)
  refine ⟨h0.1.2 (by decide), fun h => ?_⟩
  have := (h1.1.1 h).2.2.2.2.1
  exact absurd this (by decide)

/-- C3: `NumberOfMeltings()` is the `int` sum of the melted-nodes, melted-edges
and melted-cells counters and `NumberOfSubdivisions()` the `int` sum of the
bisection, trisection and quadsection counters (the exact sum whenever that is
representable), and neither changes when the inversion counter is changed. -/
theorem NumberOfMeltings_NumberOfSubdivisions_spec (c : Counters) :
    NumberOfMeltings c
        = wrapInt (c.NumberOfMeltedNodes + c.NumberOfMeltedEdges + c.NumberOfMeltedCells)
    ∧ NumberOfSubdivisions c
        = wrapInt (c.NumberOfBisections + c.NumberOfTrisections + c.NumberOfQuadsections)
    ∧ (IsInt (c.NumberOfMeltedNodes + c.NumberOfMeltedEdges + c.NumberOfMeltedCells) →
        NumberOfMeltings c
          = c.NumberOfMeltedNodes + c.NumberOfMeltedEdges + c.NumberOfMeltedCells)
    ∧ (IsInt (c.NumberOfBisections + c.NumberOfTrisections + c.NumberOfQuadsections) →
        NumberOfSubdivisions c
          = c.NumberOfBisections + c.NumberOfTrisections + c.NumberOfQuadsections)
    ∧ (∀ v : Int, NumberOfMeltings { c with NumberOfInversions := v } = NumberOfMeltings c)
    ∧ (∀ v : Int,
        NumberOfSubdivisions { c with NumberOfInversions := v } = NumberOfSubdivisions c) := by
  unfold IsInt INT_MIN INT_MAX
  unfold NumberOfMeltings NumberOfSubdivisions addInt wrapInt
  refine ⟨by omega, by omega, fun h => by omega, fun h => by omega, fun _ => rfl, fun _ => rfl⟩

/-- Witness for C3: counters 1, 2, 3, 4, 5, 6, 7 give 6 meltings and 18
subdivisions, also after the inversion counter is set to 1000. -/
theorem NumberOfMeltings_NumberOfSubdivisions_spec_witness :
    NumberOfMeltings ⟨1, 2, 3, 4, 5, 6, 7⟩ = 1 + 2 + 3
    ∧ NumberOfSubdivisions ⟨1, 2, 3, 4, 5, 6, 7⟩ = 5 + 6 + 7
    ∧ NumberOfMeltings ⟨1, 2, 3, 1000, 5, 6, 7⟩ = NumberOfMeltings ⟨1, 2, 3, 4, 5, 6, 7⟩
    ∧ NumberOfSubdivisions ⟨1, 2, 3, 1000, 5, 6, 7⟩
        = NumberOfSubdivisions ⟨1, 2, 3, 4, 5, 6, 7⟩ :=
  have h := NumberOfMeltings_NumberOfSubdivisions_spec ⟨1, 2, 3, 4, 5, 6, 7⟩
  ⟨h.2.2.1 (by decide), h.2.2.2.1 (by decide), h.2.2.2.2.1 1000, h.2.2.2.2.2 1000⟩

/-! ## Area conservation: C5 -/

/-- C5: for every triangle `ptId1 ptId2 ptId3` of the mesh, the areas (in exact
real arithmetic, in mesh coordinates) of the 2 triangles that `Bisect`, the 3
that `Trisect` (for either diagonal) and the 4 that `Quadsect` append to the
cell array, with the new points at the non-transformed midpoints of the split
edges, sum to the area of the triangle.  `o` is the output under construction:
its points start with the points of the mesh. -/
theorem subdivision_preserves_area (r : PolyDataRemeshing ℝ) (o : SubdivisionOutput ℝ)
    (ext : List (Vertex ℝ)) (cellId ptId1 ptId2 ptId3 : Nat) (alt : Bool)
    (ho : o.points = r.Output.points ++ ext)
    (h1 : ptId1 < r.Output.points.length) (h2 : ptId2 < r.Output.points.length)
    (h3 : ptId3 < r.Output.points.length) :
    ((((r.Bisect cellId ptId1 ptId2 ptId3 o).polys.drop o.polys.length).map
        (CellArea Real.sqrt (r.Bisect cellId ptId1 ptId2 ptId3 o).points)).sum
      = CellArea Real.sqrt r.Output.points ⟨ptId1, ptId2, ptId3⟩
      ∧ ((r.Bisect cellId ptId1 ptId2 ptId3 o).polys.drop o.polys.length).length = 2)
    ∧ ((((r.Trisect alt cellId ptId1 ptId2 ptId3 o).polys.drop o.polys.length).map
        (CellArea Real.sqrt (r.Trisect alt cellId ptId1 ptId2 ptId3 o).points)).sum
      = CellArea Real.sqrt r.Output.points ⟨ptId1, ptId2, ptId3⟩
      ∧ ((r.Trisect alt cellId ptId1 ptId2 ptId3 o).polys.drop o.polys.length).length = 3)
    ∧ ((((r.Quadsect cellId ptId1 ptId2 ptId3 o).polys.drop o.polys.length).map
        (CellArea Real.sqrt (r.Quadsect cellId ptId1 ptId2 ptId3 o).points)).sum
      = CellArea Real.sqrt r.Output.points ⟨ptId1, ptId2, ptId3⟩
      ∧ ((r.Quadsect cellId ptId1 ptId2 ptId3 o).polys.drop o.polys.length).length = 4) := by
  have e1 : ∀ news : List (Vertex ℝ), ∀ p, p < r.Output.points.length →
      PolyData.GetVertex ⟨r.Output.points ++ ext ++ news, []⟩ p
        = PolyData.GetVertex ⟨r.Output.points, []⟩ p := by
    intro news p hp
    rw [List.append_assoc]
    exact getVertex_append_old _ _ _ _ hp
  have e2 : ∀ news : List (Vertex ℝ), ∀ k,
      PolyData.GetVertex ⟨r.Output.points ++ ext ++ news, []⟩ ((r.Output.points ++ ext).length + k)
        = PolyData.GetVertex ⟨news, []⟩ k := by
    intro news k
    exact getVertex_append_new _ _ _ _
  have e3 := fun news => e2 news 0
  simp only [Nat.add_zero] at e3
  have n0 : ∀ (v : Vertex ℝ) (l : List (Vertex ℝ)), PolyData.GetVertex ⟨v :: l, []⟩ 0 = v :=
    fun _ _ => rfl
  have n1 : ∀ (v w : Vertex ℝ) (l : List (Vertex ℝ)),
      PolyData.GetVertex ⟨v :: w :: l, []⟩ 1 = w := fun _ _ _ => rfl
  have n2 : ∀ (u v w : Vertex ℝ) (l : List (Vertex ℝ)),
      PolyData.GetVertex ⟨u :: v :: w :: l, []⟩ 2 = w := fun _ _ _ _ => rfl
  have g : ∀ p, r.Output.GetVertex p = PolyData.GetVertex ⟨r.Output.points, []⟩ p :=
    fun _ => rfl
  obtain ⟨s1, s2, s3, s4, s5, s6, s7, s8, s9⟩ := subtriangle_areas
    (PolyData.GetVertex ⟨r.Output.points, []⟩ ptId1).position
    (PolyData.GetVertex ⟨r.Output.points, []⟩ ptId2).position
    (PolyData.GetVertex ⟨r.Output.points, []⟩ ptId3).position
  refine ⟨⟨?_, ?_⟩, ⟨?_, ?_⟩, ⟨?_, ?_⟩⟩
  · simp only [PolyDataRemeshing.Bisect, ho, List.drop_left, List.map_cons, List.map_nil,
      List.sum_cons, List.sum_nil, CellArea, e1 _ _ h1, e1 _ _ h2, e1 _ _ h3, e3, n0,
      PolyDataRemeshing.NewEdgePoint, PolyDataRemeshing.MiddlePoint, g, s1, s2]
    ring
  · simp [PolyDataRemeshing.Bisect]
  · cases alt <;>
    simp only [PolyDataRemeshing.Trisect, ho, List.drop_left, List.map_cons, List.map_nil,
      List.sum_cons, List.sum_nil, CellArea, e1 _ _ h1, e1 _ _ h2, e1 _ _ h3, e2, e3, n0, n1,
      PolyDataRemeshing.NewEdgePoint, PolyDataRemeshing.MiddlePoint, g, s1, s3, s4, s5, s6,
      if_true, if_false, Bool.false_eq_true] <;>
    ring
  · cases alt <;> simp [PolyDataRemeshing.Trisect]
  · simp only [PolyDataRemeshing.Quadsect, ho, List.drop_left, List.map_cons, List.map_nil,
      List.sum_cons, List.sum_nil, CellArea, e1 _ _ h1, e1 _ _ h2, e1 _ _ h3, e2, e3, n0, n1,
      n2, PolyDataRemeshing.NewEdgePoint, PolyDataRemeshing.MiddlePoint, g, s3, s7, s8, s9]
    ring
  · simp [PolyDataRemeshing.Quadsect]

/-- Witness for C5: the right triangle of `FeatureTriangle` over the reals, as the
first triangle the subdivision pass treats. -/
theorem subdivision_preserves_area_witness :
    (((((FeatureFilter ℝ).Quadsect 0 0 1 2 ⟨(FeatureTriangle ℝ).points, [], Counters.zero⟩).polys.drop
          0).map
        (CellArea Real.sqrt
          ((FeatureFilter ℝ).Quadsect 0 0 1 2
            ⟨(FeatureTriangle ℝ).points, [], Counters.zero⟩).points)).sum
      = CellArea Real.sqrt (FeatureTriangle ℝ).points ⟨0, 1, 2⟩) :=
  (subdivision_preserves_area (FeatureFilter ℝ) ⟨(FeatureTriangle ℝ).points, [], Counters.zero⟩
    [] 0 0 1 2 false (List.append_nil _).symm (by simp [FeatureFilter, ExampleFilter, FeatureTriangle])
    (by simp [FeatureFilter, ExampleFilter, FeatureTriangle])
    (by simp [FeatureFilter, ExampleFilter, FeatureTriangle])).2.2.1

/-! ## Edge-length field: C6, C7 -/

/-- C6: with an adaptive scalar array `a`, a logistic function with values in
`[0, 1]` and `MinEdgeLength ≤ MaxEdgeLength`, the minimum and the maximum edge
length that `InitializeEdgeLengthRange` gives to a point both lie in
`[MinEdgeLength, MaxEdgeLength]`. -/
theorem InitializeEdgeLengthRange_within_global_range {K : Type} [LinearOrderedField K]
    (f : MathFunctions K) (r : PolyDataRemeshing K) (a : List K) (ptId : Nat)
    (ha : r.AdaptiveEdgeLengthArray = some a)
    (hlog : ∀ t, 0 ≤ f.logistic t ∧ f.logistic t ≤ 1)
    (hle : r.MinEdgeLength ≤ r.MaxEdgeLength) (hp : ptId < a.length) :
    r.MinEdgeLength ≤ ((r.InitializeEdgeLengthRange f).TargetRange ptId).1
    ∧ ((r.InitializeEdgeLengthRange f).TargetRange ptId).1 ≤ r.MaxEdgeLength
    ∧ r.MinEdgeLength ≤ ((r.InitializeEdgeLengthRange f).TargetRange ptId).2
    ∧ ((r.InitializeEdgeLengthRange f).TargetRange ptId).2 ≤ r.MaxEdgeLength := by
  have hw := hlog ((clamp (a.getD ptId 0) (f.percentile 5 a) (f.percentile 95 a)
    - f.percentile 5 a) / (f.percentile 95 a - f.percentile 5 a))
  have hl := lerp_mem_range hle hw.1 hw.2
  simp only [PolyDataRemeshing.InitializeEdgeLengthRange, ha, PolyDataRemeshing.TargetRange]
  rw [getD_map_lerp f _ _ a ptId hp]
  exact ⟨hl.1, hl.2, hl.1, hl.2⟩

/-- Witness for C6: the second point of `AdaptiveFilter` (global range `[1, 3]`,
adaptive scalars 1, 2, 4) over the reals, with the logistic function
`1 / (1 + exp (-t))`. -/
theorem InitializeEdgeLengthRange_within_global_range_witness :
    (1 : ℝ) ≤ (((AdaptiveFilter ℝ).InitializeEdgeLengthRange
        ⟨Real.sqrt, fun d => Real.cos (d * Real.pi / 180), fun t => 1 / (1 + Real.exp (-t)),
          fun _ a => a.headD 0⟩).TargetRange 1).1
    ∧ (((AdaptiveFilter ℝ).InitializeEdgeLengthRange
        ⟨Real.sqrt, fun d => Real.cos (d * Real.pi / 180), fun t => 1 / (1 + Real.exp (-t)),
          fun _ a => a.headD 0⟩).TargetRange 1).1 ≤ 3
    ∧ (1 : ℝ) ≤ (((AdaptiveFilter ℝ).InitializeEdgeLengthRange
        ⟨Real.sqrt, fun d => Real.cos (d * Real.pi / 180), fun t => 1 / (1 + Real.exp (-t)),
          fun _ a => a.headD 0⟩).TargetRange 1).2
    ∧ (((AdaptiveFilter ℝ).InitializeEdgeLengthRange
        ⟨Real.sqrt, fun d => Real.cos (d * Real.pi / 180), fun t => 1 / (1 + Real.exp (-t)),
          fun _ a => a.headD 0⟩).TargetRange 1).2 ≤ 3 :=
  InitializeEdgeLengthRange_within_global_range
    ⟨Real.sqrt, fun d => Real.cos (d * Real.pi / 180), fun t => 1 / (1 + Real.exp (-t)),
      fun _ a => a.headD 0⟩
    (AdaptiveFilter ℝ) [1, 2, 4] 1 rfl
    (fun t => ⟨le_of_lt (div_pos one_pos (by positivity)),
      (div_le_one (by positivity)).mpr (by linarith [Real.exp_pos (-t)])⟩)
    (by simp [AdaptiveFilter, ExampleFilter]) (by decide)

/-- C7: after `Initialize`, for every edge `(ptId1, ptId2)`,
`SquaredMinEdgeLength` is the square of the arithmetic mean of the per-point
minimum lengths of the two end points and `SquaredMaxEdgeLength` the square of
the mean of their per-point maximum lengths; without an adaptive edge length
array they are `MinEdgeLength²` and `MaxEdgeLength²`. -/
theorem SquaredEdgeLength_eq_sq_mean {K : Type} [LinearOrderedField K]
    (f : MathFunctions K) (r0 r : PolyDataRemeshing K)
    (ptId1 ptId2 : Nat) (h : r0.Initialize f = some r) :
    r.SquaredMinEdgeLength ptId1 ptId2
        = (((r.TargetRange ptId1).1 + (r.TargetRange ptId2).1) / 2) ^ 2
    ∧ r.SquaredMaxEdgeLength ptId1 ptId2
        = (((r.TargetRange ptId1).2 + (r.TargetRange ptId2).2) / 2) ^ 2
    ∧ (r0.AdaptiveEdgeLengthArray = none →
        r.SquaredMinEdgeLength ptId1 ptId2 = r.MinEdgeLength ^ 2
        ∧ r.SquaredMaxEdgeLength ptId1 ptId2 = r.MaxEdgeLength ^ 2) := by
  obtain ⟨_, _, _, _, _, hmin, hmax, hmin2, hmax2, hamin, hamax⟩ := Initialize_eq_some h
  unfold PolyDataRemeshing.SquaredMinEdgeLength PolyDataRemeshing.SquaredMaxEdgeLength
    PolyDataRemeshing.TargetRange
  cases ha : r0.AdaptiveEdgeLengthArray with
  | none =>
    simp only [ha, Option.map_none'] at hamin hamax
    simp only [hamin, hamax, hmin, hmax, hmin2, hmax2]
    refine ⟨by ring, by ring, fun _ => ⟨by ring, by ring⟩⟩
  | some a =>
    simp only [ha, Option.map_some'] at hamin hamax
    simp only [hamin, hamax]
    refine ⟨by ring, by ring, fun hn => absurd hn (by simp)⟩

/-- Witness for C7: the edge between points 0 and 2 of `SquareMesh` after
`Initialize` with edge lengths in `[1/2, 2]` and no adaptive array. -/
theorem SquaredEdgeLength_eq_sq_mean_witness :
    (ExampleFilter ℚ (1 / 2) 2 (SquareMesh ℚ)).SquaredMinEdgeLength 0 2 = (1 / 2) ^ 2
    ∧ (ExampleFilter ℚ (1 / 2) 2 (SquareMesh ℚ)).SquaredMaxEdgeLength 0 2 = 2 ^ 2 :=
  (SquaredEdgeLength_eq_sq_mean (ExampleFunctions ℚ) (ExampleFilter ℚ (1 / 2) 2 (SquareMesh ℚ))
    (ExampleFilter ℚ (1 / 2) 2 (SquareMesh ℚ)) 0 2
    (ExampleFilter_Initialize _ _ _ (by norm_num) (by norm_num))).2.2 rfl

/-! ## Idempotence of `Execute`: C9 -/

/-- C9: let `r` be the state after `Initialize`.  If every edge of every live
cell has its length within its target range (so there is no short and no
over-long edge), no node of connectivity three is accepted for melting while
`MeltNodes` is on, no flip to increase the minimum height is accepted while
that inversion is on, and no edge is a feature edge to split, then one
`Execute` (with fuel for every cell) returns, leaves points and live cells as
they were, and `NumberOfChanges() == 0`; point count and cell count are the
same as before.  (A flip of a long edge cannot be accepted: no edge exceeds its
maximum length.) -/
theorem Execute_idempotent_on_converged_mesh {K : Type} [LinearOrderedField K]
    (f : MathFunctions K) (ops : LocalOperations K)
    (r0 r : PolyDataRemeshing K) (fuel : Nat)
    (hinit : r0.Initialize f = some r)
    (hrange : ∀ t ∈ r.Output.LiveCells, ∀ e ∈ t.edges,
      r.SquaredMinEdgeLength e.1 e.2 ≤ r.EdgeLength2 e.1 e.2
      ∧ r.EdgeLength2 e.1 e.2 ≤ r.SquaredMaxEdgeLength e.1 e.2)
    (hnode : r.MeltNodes = true → ∀ ptId, ptId < r.Output.points.length →
      ¬ (r.NodeConnectivity ptId = 3 ∧ ops.MeltNodeAccepted r ptId = true))
    (hflip : r.InvertTrianglesToIncreaseMinHeight = true →
      ∀ cellId i t neighborId, r.Output.GetCell cellId = some t →
        r.GetCellEdgeNeighbor cellId (t.edge i).1 (t.edge i).2 = some neighborId →
        ops.FlipIncreasesMinHeight r cellId neighborId (t.edge i).1 (t.edge i).2 = false)
    (hfeature : ∀ t ∈ r.Output.LiveCells, ∀ e ∈ t.edges,
      ¬ (r.IsFeatureEdge r.MaxFeatureAngleCos e.1 e.2 = true
        ∧ 4 * r.MinEdgeLengthSquared ≤ r.EdgeLength2 e.1 e.2))
    (hfuel : r.Output.polys.length ≤ fuel) :
    ∃ r', r.Execute f ops fuel = some r'
      ∧ NumberOfChanges r'.toCounters = 0
      ∧ r'.toCounters = r.toCounters
      ∧ r'.Output.points = r.Output.points
      ∧ r'.Output.LiveCells = r.Output.LiveCells
      ∧ r'.Output.NumberOfPoints = r.Output.NumberOfPoints
      ∧ r'.Output.NumberOfCells = r.Output.NumberOfCells := by
  have hcount : r.toCounters = Counters.zero := (Initialize_eq_some hinit).2.2.1
  refine ⟨{ r with Output := ⟨r.Output.points, r.Output.LiveCells.map some⟩ },
    Execute_of_nothing_to_do f ops r fuel hrange hnode hflip hfeature hfuel, ?_, rfl, rfl, ?_,
    rfl, ?_⟩
  · simp only [hcount]
    decide
  · exact LiveCells_map_some _ _
  · unfold PolyData.NumberOfCells
    rw [LiveCells_map_some]

/-- Witness for C9: the unit square of two triangles with edge lengths in
`[1/2, 2]`: its edges have squared lengths 1 and 2, within `[1/4, 4]`. -/
theorem Execute_idempotent_on_converged_mesh_witness :
    ∃ r', (ExampleFilter ℚ (1 / 2) 2 (SquareMesh ℚ)).Execute (ExampleFunctions ℚ)
        (NoOperations ℚ) 2 = some r'
      ∧ NumberOfChanges r'.toCounters = 0
      ∧ r'.toCounters = (ExampleFilter ℚ (1 / 2) 2 (SquareMesh ℚ)).toCounters
      ∧ r'.Output.points = (ExampleFilter ℚ (1 / 2) 2 (SquareMesh ℚ)).Output.points
      ∧ r'.Output.LiveCells = (ExampleFilter ℚ (1 / 2) 2 (SquareMesh ℚ)).Output.LiveCells
      ∧ r'.Output.NumberOfPoints = (ExampleFilter ℚ (1 / 2) 2 (SquareMesh ℚ)).Output.NumberOfPoints
      ∧ r'.Output.NumberOfCells = (ExampleFilter ℚ (1 / 2) 2 (SquareMesh ℚ)).Output.NumberOfCells := by
  refine Execute_idempotent_on_converged_mesh (ExampleFunctions ℚ) (NoOperations ℚ)
    (ExampleFilter ℚ (1 / 2) 2 (SquareMesh ℚ)) (ExampleFilter ℚ (1 / 2) 2 (SquareMesh ℚ)) 2
    (ExampleFilter_Initialize _ _ _ (by norm_num) (by norm_num)) ?_ ?_ ?_ ?_ ?_
  · simp [PolyData.LiveCells, Triangle.edges, ExampleFilter, SquareMesh,
      PolyDataRemeshing.SquaredMinEdgeLength, PolyDataRemeshing.SquaredMaxEdgeLength,
      PolyDataRemeshing.EdgeLength2, PolyDataRemeshing.GetPoint,
      PolyDataRemeshing.GetTransformed, PolyData.GetVertex, Distance2BetweenPoints, Point.sub,
      Point.dot]
    norm_num
  · intro _ ptId _ h
    simp [NoOperations] at h
  · intro _ cellId i t nb _ _
    rfl
  · simp [PolyData.LiveCells, Triangle.edges, ExampleFilter, SquareMesh,
      PolyDataRemeshing.IsFeatureEdge, PolyDataRemeshing.GetNormal,
      PolyDataRemeshing.GetTransformed, PolyData.GetVertex, Point.dot]
  · simp [ExampleFilter, SquareMesh]

/-! ## Registration energy -/

section EnergyLemmas
set_option linter.unusedSectionVars false
variable {K S : Type} [LinearOrderedField K]

theorem TotalWeight_fold_spec (l : List (EnergyTerm K S)) (W : K) (hW : 0 ≤ W) :
    0 ≤ l.foldl (fun W t => if t.IsSparsityConstraint then W else W + |t.Weight|) W ∧
    (l.foldl (fun W t => if t.IsSparsityConstraint then W else W + |t.Weight|) W = 0 ↔
      W = 0 ∧ ∀ t ∈ l, t.IsSparsityConstraint = false → t.Weight = 0) := by
  induction l generalizing W with
  | nil => simp [hW]
  | cons t ts ih =>
    rw [List.foldl_cons]
    cases hsp : t.IsSparsityConstraint with
    | true =>
      simp only [if_true]
      refine ⟨(ih W hW).1, ?_⟩
      rw [(ih W hW).2]
      simp [hsp]
    | false =>
      have habs : 0 ≤ |t.Weight| := abs_nonneg _
      have hW2 : 0 ≤ W + |t.Weight| := add_nonneg hW habs
      simp only [Bool.false_eq_true, if_false]
      refine ⟨(ih _ hW2).1, ?_⟩
      rw [(ih _ hW2).2]
      constructor
      · rintro ⟨h0, hall⟩
        have hW0 : W = 0 := by linarith
        have ht0 : |t.Weight| = 0 := by linarith
        refine ⟨hW0, ?_⟩
        intro u hu hus
        rcases List.mem_cons.mp hu with rfl | hu
        · exact abs_eq_zero.mp ht0
        · exact hall u hu hus
      · rintro ⟨hW0, hall⟩
        have ht0 : t.Weight = 0 := hall t (List.mem_cons_self _ _) hsp
        refine ⟨by simp [hW0, ht0], ?_⟩
        intro u hu hus
        exact hall u (List.mem_cons_of_mem _ hu) hus

theorem TotalWeight_eq_zero_iff (E : RegistrationEnergy K S) :
    E.TotalWeight = 0 ↔ ∀ t ∈ E.Term, t.IsSparsityConstraint = false → t.Weight = 0 := by
  unfold RegistrationEnergy.TotalWeight
  rw [(TotalWeight_fold_spec E.Term 0 le_rfl).2]
  simp

theorem AddGradients_fold_eq_filter (m : EnergyFunctions K S) (step : K)
    (l : List (EnergyTerm K S)) (g : List K) :
    l.foldl (fun g t =>
      if t.Weight ≠ 0 then
        if t.IsSparsityConstraint then g else m.Gradient t step g
      else g) g
    = (l.filter (fun t => !t.IsSparsityConstraint && decide (t.Weight ≠ 0))).foldl
        (fun g t => m.Gradient t step g) g := by
  induction l generalizing g with
  | nil => rfl
  | cons t ts ih =>
    rw [List.foldl_cons, ih]
    by_cases hw : t.Weight = 0
    · simp [List.filter_cons, hw]
    · cases hsp : t.IsSparsityConstraint <;> simp [List.filter_cons, hw, hsp]

theorem AddSparsityGradient_eq_head (m : EnergyFunctions K S) (step : K)
    (l : List (EnergyTerm K S)) (out : List K × Option (List Bool)) :
    AddSparsityGradient m step l out
    = match (l.filter (fun t => t.IsSparsityConstraint && decide (t.Weight ≠ 0))).head? with
      | some sparsity => m.SparsityGradient sparsity step out.1 out.2
      | none => out := by
  induction l with
  | nil => rfl
  | cons t ts ih =>
    unfold AddSparsityGradient
    by_cases hw : t.Weight = 0
    · simp [List.filter_cons, hw, ih]
    · cases hsp : t.IsSparsityConstraint <;> simp [List.filter_cons, hw, hsp, ih]

end EnergyLemmas

/-! ## Theorems about the registration energy -/

section EnergyTheorems
variable {K S : Type} [LinearOrderedField K]

/-- C14, at three sparsity terms of weight one: `Initialize` adjusts the weight
of the first, sets the weight of the second to zero with one warning on `cerr`,
and leaves the loop, so that the third sparsity term still has weight one. -/
theorem Initialize_leaves_third_sparsity_weight :
    (((ExampleEnergy ℚ false (ThreeSparsityTerms ℚ)).Initialize
        (ExampleEnergyFunctions ℚ)).1.Term.map
      (fun t => (t.IsSparsityConstraint, t.Weight))
      = [(true, 2), (true, 0), (true, 1)]) ∧
    ((ExampleEnergy ℚ false (ThreeSparsityTerms ℚ)).Initialize
        (ExampleEnergyFunctions ℚ)).2
      = ["WARNING Only first sparsity term will be used! Ignoring additional sparsity terms."] := by
  constructor
  · simp [RegistrationEnergy.Initialize, ExampleEnergy, ThreeSparsityTerms,
      ExampleEnergyFunctions, RegistrationEnergy.AdjustSparsityWeight, List.range_succ,
      RegistrationEnergy.Update, RegistrationEnergy.GradientExcluding,
      RegistrationEnergy.ActiveNorm, RegistrationEnergy.SetWeight, EnergyTerm.SetWeight,
      addInt, wrapInt, List.modify]
    norm_num
  · simp [RegistrationEnergy.Initialize, ExampleEnergy, ThreeSparsityTerms,
      ExampleEnergyFunctions, RegistrationEnergy.AdjustSparsityWeight, List.range_succ,
      RegistrationEnergy.Update, RegistrationEnergy.GradientExcluding,
      RegistrationEnergy.ActiveNorm, RegistrationEnergy.SetWeight, EnergyTerm.SetWeight,
      addInt, wrapInt, List.modify]

/-- C19, counterexample: with gradient normalisation enabled and a single
sparsity term of weight one, `Gradient` exits with "All energy terms have zero
weight!" although not every term has weight zero. -/
theorem Gradient_exits_with_weighted_sparsity_term :
    (ExampleEnergy ℚ true [⟨true, 1, 1⟩]).Gradient (ExampleEnergyFunctions ℚ) [0, 0] 1 none
      = Except.error
          ⟨1, "RegistrationEnergy::Gradient: All energy terms have zero weight!"⟩ ∧
    ¬ (∀ t ∈ (ExampleEnergy ℚ true [⟨true, 1, 1⟩]).Term, t.Weight = 0) := by
  constructor
  · simp [RegistrationEnergy.Gradient, ExampleEnergy, RegistrationEnergy.TotalWeight]
  · simp [ExampleEnergy]

/-- C19, amended: with gradient normalisation enabled, `Gradient` exits with
status 1 and the message "All energy terms have zero weight!" if and only if
every term that is not a sparsity constraint has weight zero; in every other
case it returns. -/
theorem Gradient_exits_iff_weights_of_other_terms_zero (m : EnergyFunctions K S)
    (E : RegistrationEnergy K S) (gradient : List K) (step : K)
    (sgn_chg : Option (List Bool)) (hnormalize : E.NormalizeGradients = true) :
    (E.Gradient m gradient step sgn_chg
        = Except.error
            ⟨1, "RegistrationEnergy::Gradient: All energy terms have zero weight!"⟩
      ↔ ∀ t ∈ E.Term, t.IsSparsityConstraint = false → t.Weight = 0) ∧
    ((∃ out, E.Gradient m gradient step sgn_chg = Except.ok out)
      ↔ ∃ t ∈ E.Term, t.IsSparsityConstraint = false ∧ t.Weight ≠ 0) := by
  have hW := TotalWeight_eq_zero_iff E
  by_cases h0 : E.TotalWeight = 0
  · have hall := hW.mp h0
    have herr : E.Gradient m gradient step sgn_chg
        = Except.error
            ⟨1, "RegistrationEnergy::Gradient: All energy terms have zero weight!"⟩ := by
      simp [RegistrationEnergy.Gradient, hnormalize, h0]
    refine ⟨⟨fun _ => hall, fun _ => herr⟩, ?_⟩
    constructor
    · rintro ⟨out, hout⟩
      rw [herr] at hout
      cases hout
    · rintro ⟨t, ht, hsp, hw⟩
      exact absurd (hall t ht hsp) hw
  · have hnot : ¬ ∀ t ∈ E.Term, t.IsSparsityConstraint = false → t.Weight = 0 :=
      fun h => h0 (hW.mpr h)
    have hok : ∃ out, E.Gradient m gradient step sgn_chg = Except.ok out := by
      unfold RegistrationEnergy.Gradient
      simp only [hnormalize, h0, if_true, if_false]
      split
      · exact ⟨_, rfl⟩
      · exact ⟨_, rfl⟩
    refine ⟨⟨?_, fun h => absurd h hnot⟩, ⟨fun _ => ?_, fun _ => hok⟩⟩
    · intro herr
      obtain ⟨out, hout⟩ := hok
      rw [hout] at herr
      cases herr
    · by_contra hcon
      apply hnot
      intro t ht hsp
      by_contra hw
      exact hcon ⟨t, ht, hsp, hw⟩

theorem Gradient_exits_iff_weights_of_other_terms_zero_witness :
    (ExampleEnergy ℚ true (MixedTerms ℚ)).NormalizeGradients = true ∧
    (((ExampleEnergy ℚ true (MixedTerms ℚ)).Gradient (ExampleEnergyFunctions ℚ) [0, 0] 1 none
        = Except.error
            ⟨1, "RegistrationEnergy::Gradient: All energy terms have zero weight!"⟩
      ↔ ∀ t ∈ (ExampleEnergy ℚ true (MixedTerms ℚ)).Term,
          t.IsSparsityConstraint = false → t.Weight = 0) ∧
    ((∃ out, (ExampleEnergy ℚ true (MixedTerms ℚ)).Gradient (ExampleEnergyFunctions ℚ)
        [0, 0] 1 none = Except.ok out)
      ↔ ∃ t ∈ (ExampleEnergy ℚ true (MixedTerms ℚ)).Term,
          t.IsSparsityConstraint = false ∧ t.Weight ≠ 0)) :=
  ⟨rfl, Gradient_exits_iff_weights_of_other_terms_zero (ExampleEnergyFunctions ℚ)
    (ExampleEnergy ℚ true (MixedTerms ℚ)) [0, 0] 1 none rfl⟩

/-- C20: without gradient normalisation `Gradient` returns, and its result is
the zeroed gradient (with every sign flag set to true when `sgn_chg` is given)
to which the gradients of the non-sparsity terms with non-zero weight were
added in term order and then, after all of them, that of the first sparsity
term with non-zero weight if there is one; terms with zero weight and further
sparsity terms are not called. -/
theorem Gradient_eq_GradientInTermOrder (m : EnergyFunctions K S)
    (E : RegistrationEnergy K S) (gradient : List K) (step : K)
    (sgn_chg : Option (List Bool)) (hnormalize : E.NormalizeGradients = false) :
    E.Gradient m gradient step sgn_chg
      = Except.ok (E.GradientInTermOrder m gradient step sgn_chg) := by
  unfold RegistrationEnergy.Gradient RegistrationEnergy.GradientInTermOrder
    RegistrationEnergy.AddGradients RegistrationEnergy.WeightedTerms
    RegistrationEnergy.FirstSparsityTerm
  simp only [hnormalize, Bool.false_eq_true, if_false]
  rw [AddGradients_fold_eq_filter, AddSparsityGradient_eq_head]
  split <;> rfl

theorem Gradient_eq_GradientInTermOrder_witness :
    (ExampleEnergy ℚ false (MixedTerms ℚ)).NormalizeGradients = false ∧
    (ExampleEnergy ℚ false (MixedTerms ℚ)).Gradient (ExampleEnergyFunctions ℚ) [9, 9, 9] 0
        (some [false, false, false])
      = Except.ok ((ExampleEnergy ℚ false (MixedTerms ℚ)).GradientInTermOrder
          (ExampleEnergyFunctions ℚ) [9, 9, 9] 0 (some [false, false, false])) :=
  ⟨rfl, Gradient_eq_GradientInTermOrder (ExampleEnergyFunctions ℚ)
    (ExampleEnergy ℚ false (MixedTerms ℚ)) [9, 9, 9] 0 (some [false, false, false]) rfl⟩

end EnergyTheorems

/-! ## Data operations -/

section DataOpLemmas
set_option linter.unusedSectionVars false
variable {K : Type} [LinearOrderedField K]

theorem wrapInt_of_IsInt {x : Int} (h : IsInt x) : wrapInt x = x := by
  unfold IsInt INT_MIN INT_MAX at h
  unfold wrapInt
  omega

theorem foldlM_ok_of_forall {σ ι ε : Type} (f : σ → ι → Except ε σ) (l : List ι)
    (hf : ∀ s, ∀ x ∈ l, ∃ s', f s x = Except.ok s') (s : σ) :
    ∃ s', l.foldlM f s = Except.ok s' := by
  induction l generalizing s with
  | nil => exact ⟨s, rfl⟩
  | cons x xs ih =>
    obtain ⟨s', hs'⟩ := hf s x (List.mem_cons_self _ _)
    obtain ⟨u, hu⟩ := ih (fun s y hy => hf s y (List.mem_cons_of_mem _ hy)) s'
    refine ⟨u, ?_⟩
    rw [List.foldlM_cons, hs']
    exact hu

theorem GetTuple_ok (data : vtkDataArray K) (i n : Int) (d : List K) (offset : Int)
    (h0 : 0 ≤ offset) (hn : offset + data.NumberOfComponents ≤ n) :
    ∃ d', data.GetTuple i n d offset = Except.ok d' := by
  unfold vtkDataArray.GetTuple
  apply foldlM_ok_of_forall
  intro s comp hcomp
  have hlt : (comp : Int) < data.NumberOfComponents := by
    have := List.mem_range.mp hcomp
    omega
  have hin : 0 ≤ offset + (comp : Int) ∧ offset + (comp : Int) < n := by omega
  exact ⟨_, if_pos hin⟩

theorem GetTuple_loop_ok (data : vtkDataArray K) (n : Int) (d : List K)
    (hc : 0 ≤ data.NumberOfComponents)
    (T : Nat) (hT : (T : Int) * data.NumberOfComponents ≤ n) :
    ∃ d', (List.range T).foldlM
        (fun (s : List K × Int) (i : Nat) =>
          (data.GetTuple i n s.1 s.2).map (fun d => (d, s.2 + data.NumberOfComponents)))
        (d, 0) = Except.ok (d', (T : Int) * data.NumberOfComponents) := by
  induction T with
  | zero => exact ⟨d, by simp [pure, Except.pure]⟩
  | succ T ih =>
    have hT' : (T : Int) * data.NumberOfComponents ≤ n := by
      have : ((T + 1 : Nat) : Int) * data.NumberOfComponents
          = (T : Int) * data.NumberOfComponents + data.NumberOfComponents := by
        push_cast; ring
      omega
    obtain ⟨d', hd'⟩ := ih hT'
    have hget := GetTuple_ok data (T : Int) n d' ((T : Int) * data.NumberOfComponents)
      (mul_nonneg (Int.natCast_nonneg T) hc)
      (by
        have : ((T + 1 : Nat) : Int) * data.NumberOfComponents
            = (T : Int) * data.NumberOfComponents + data.NumberOfComponents := by
          push_cast; ring
        omega)
    obtain ⟨dT, hdT⟩ := hget
    refine ⟨dT, ?_⟩
    rw [List.range_succ, List.foldlM_append, hd']
    simp only [List.foldlM_cons, List.foldlM_nil]
    show (do
      let s' ← (data.GetTuple (T : Int) n d' ((T : Int) * data.NumberOfComponents)).map
        (fun d => (d, (T : Int) * data.NumberOfComponents + data.NumberOfComponents))
      pure s') = _
    rw [hdT]
    have : ((T + 1 : Nat) : Int) * data.NumberOfComponents
        = (T : Int) * data.NumberOfComponents + data.NumberOfComponents := by
      push_cast; ring
    rw [this]
    rfl

theorem SetTuple_out_of_bounds (cast : K → K) (data : vtkDataArray K) (i n : Int)
    (d : List K) (offset : Int) (hc : 1 ≤ data.NumberOfComponents) (hn : n ≤ offset) :
    data.SetTuple cast i n d offset = Except.error ⟨offset, n⟩ := by
  unfold vtkDataArray.SetTuple
  obtain ⟨k, hk⟩ : ∃ k, data.NumberOfComponents.toNat = k + 1 :=
    ⟨data.NumberOfComponents.toNat - 1, by omega⟩
  rw [hk, List.range_succ_eq_map, List.foldlM_cons]
  have hout : ¬ (0 ≤ offset + ((0 : Nat) : Int) ∧ offset + ((0 : Nat) : Int) < n) := by
    simp only [Nat.cast_zero, add_zero]
    omega
  rw [if_neg hout]
  simp only [Nat.cast_zero, add_zero]
  rfl

end DataOpLemmas

/-! ## Theorems about the data operations -/

section DataOpTheorems
set_option linter.unusedSectionVars false
variable {K : Type} [LinearOrderedField K]

/-- C15: for every array that is not of type `double` and has at least one
tuple of at least one component, `Op::Process(data, mask)` copies the tuples
to the buffer `d` of `n` = tuples * components elements and then, in the loop
that writes the tuples back, reads from the pointer `tuple` that the first
loop left at `d + n`: the first `SetTuple` accesses `d[n]`, outside of the `n`
elements of `d`. -/
theorem Op_Process_reads_outside_buffer
    (Process : Int → List K → Option (List Bool) → List K) (cast : Int → K → K)
    (a : vtkDataArray K) (mask : Option (List Bool))
    (htype : a.DataType ≠ VTK_DOUBLE) (ht : 1 ≤ a.NumberOfTuples)
    (hc : 1 ≤ a.NumberOfComponents)
    (hn : IsInt (a.NumberOfTuples * a.NumberOfComponents)) :
    data.Op.Process Process cast a mask
      = Except.error ⟨a.NumberOfTuples * a.NumberOfComponents,
          a.NumberOfTuples * a.NumberOfComponents⟩ := by
  unfold data.Op.Process
  simp only [htype, if_false, wrapInt_of_IsInt hn]
  have hT : (a.NumberOfTuples.toNat : Int) * a.NumberOfComponents
      ≤ a.NumberOfTuples * a.NumberOfComponents := by
    rw [Int.toNat_of_nonneg (by omega)]
  obtain ⟨d', hd'⟩ := GetTuple_loop_ok a (a.NumberOfTuples * a.NumberOfComponents)
    (List.replicate (a.NumberOfTuples * a.NumberOfComponents).toNat 0) (by omega)
    a.NumberOfTuples.toNat hT
  rw [Int.toNat_of_nonneg (by omega)] at hd'
  rw [hd']
  obtain ⟨k, hk⟩ : ∃ k, a.NumberOfTuples.toNat = k + 1 :=
    ⟨a.NumberOfTuples.toNat - 1, by omega⟩
  simp only [hk, List.range_succ_eq_map, List.foldlM_cons]
  rw [SetTuple_out_of_bounds _ _ _ _ _ _ hc le_rfl]
  rfl

theorem Op_Process_reads_outside_buffer_witness :
    (FloatArray ℚ).DataType ≠ VTK_DOUBLE ∧ 1 ≤ (FloatArray ℚ).NumberOfTuples ∧
    1 ≤ (FloatArray ℚ).NumberOfComponents ∧
    data.Op.Process (DoubleEveryElement ℚ) (fun _ x => x) (FloatArray ℚ) none
      = Except.error ⟨6, 6⟩ :=
  ⟨by decide, by decide, by decide,
    Op_Process_reads_outside_buffer (DoubleEveryElement ℚ) (fun _ x => x) (FloatArray ℚ) none
      (by decide) (by decide) (by decide) (by decide)⟩

/-- C16: the members generated by `mirtkCalculateVtkDataArray1` and
`mirtkCalculateVtkDataArray2` call the typed `Calculate` of the subclass on the
values of the array with `n` = tuples * components (as an `int`) for the types
`short`, `int`, `float` and `double`; for every other type both write
"Unsupported vtkDataArray type: " and the type code to `cerr` and exit with
status 1. -/
theorem CalculateVtkDataArray_dispatches_on_type
    (Calculate1 : ValueType → Int → List K → Option (List Bool) → K)
    (Calculate2 : ValueType → K × K → Int → List K → Option (List Bool) → K × K)
    (v : K × K) (a : vtkDataArray K) (mask : Option (List Bool)) :
    (IsInt (a.NumberOfTuples * a.NumberOfComponents) →
      wrapInt (a.NumberOfTuples * a.NumberOfComponents)
        = a.NumberOfTuples * a.NumberOfComponents) ∧
    (a.DataType = VTK_SHORT →
      data.CalculateVtkDataArray1 Calculate1 a mask = Except.ok (Calculate1 ValueType.short
        (wrapInt (a.NumberOfTuples * a.NumberOfComponents)) a.Values mask) ∧
      data.CalculateVtkDataArray2 Calculate2 v a mask = Except.ok (Calculate2 ValueType.short v
        (wrapInt (a.NumberOfTuples * a.NumberOfComponents)) a.Values mask)) ∧
    (a.DataType = VTK_INT →
      data.CalculateVtkDataArray1 Calculate1 a mask = Except.ok (Calculate1 ValueType.int
        (wrapInt (a.NumberOfTuples * a.NumberOfComponents)) a.Values mask) ∧
      data.CalculateVtkDataArray2 Calculate2 v a mask = Except.ok (Calculate2 ValueType.int v
        (wrapInt (a.NumberOfTuples * a.NumberOfComponents)) a.Values mask)) ∧
    (a.DataType = VTK_FLOAT →
      data.CalculateVtkDataArray1 Calculate1 a mask = Except.ok (Calculate1 ValueType.float
        (wrapInt (a.NumberOfTuples * a.NumberOfComponents)) a.Values mask) ∧
      data.CalculateVtkDataArray2 Calculate2 v a mask = Except.ok (Calculate2 ValueType.float v
        (wrapInt (a.NumberOfTuples * a.NumberOfComponents)) a.Values mask)) ∧
    (a.DataType = VTK_DOUBLE →
      data.CalculateVtkDataArray1 Calculate1 a mask = Except.ok (Calculate1 ValueType.double
        (wrapInt (a.NumberOfTuples * a.NumberOfComponents)) a.Values mask) ∧
      data.CalculateVtkDataArray2 Calculate2 v a mask = Except.ok (Calculate2 ValueType.double v
        (wrapInt (a.NumberOfTuples * a.NumberOfComponents)) a.Values mask)) ∧
    (a.DataType ≠ VTK_SHORT ∧ a.DataType ≠ VTK_INT ∧ a.DataType ≠ VTK_FLOAT ∧
        a.DataType ≠ VTK_DOUBLE →
      data.CalculateVtkDataArray1 Calculate1 a mask
        = Except.error ⟨1, "Unsupported vtkDataArray type: " ++ toString a.DataType⟩ ∧
      data.CalculateVtkDataArray2 Calculate2 v a mask
        = Except.error ⟨1, "Unsupported vtkDataArray type: " ++ toString a.DataType⟩) := by
  refine ⟨wrapInt_of_IsInt, ?_, ?_, ?_, ?_, ?_⟩
  · intro h
    simp [data.CalculateVtkDataArray1, data.CalculateVtkDataArray2, h]
  · intro h
    simp [data.CalculateVtkDataArray1, data.CalculateVtkDataArray2, h, VTK_SHORT, VTK_INT]
  · intro h
    simp [data.CalculateVtkDataArray1, data.CalculateVtkDataArray2, h, VTK_SHORT, VTK_INT,
      VTK_FLOAT]
  · intro h
    simp [data.CalculateVtkDataArray1, data.CalculateVtkDataArray2, h, VTK_SHORT, VTK_INT,
      VTK_FLOAT, VTK_DOUBLE]
  · rintro ⟨h1, h2, h3, h4⟩
    simp [data.CalculateVtkDataArray1, data.CalculateVtkDataArray2, h1, h2, h3, h4]

end DataOpTheorems

/-! ## Closing of an image -/

section CloseLemmas
set_option linter.unusedSectionVars false
variable {K V C : Type} [Zero K] [Zero V]

theorem mem_forRange (i1 i2 i : Int) : i ∈ forRange i1 i2 ↔ i1 ≤ i ∧ i ≤ i2 := by
  unfold forRange
  simp only [List.mem_map, List.mem_range]
  constructor
  · rintro ⟨n, hn, rfl⟩
    omega
  · rintro ⟨h1, h2⟩
    exact ⟨(i - i1).toNat, by omega, by omega⟩

theorem IsOverwrite_foldl {ι : Type} (step : BaseImage K V → ι → BaseImage K V)
    (region : ι → Int → Int → Int → Prop) (value : Int → Int → Int → V) (l : List ι)
    (hstep : ∀ p, ∀ x ∈ l, BaseImage.IsOverwrite p (step p x) (region x) value)
    (p : BaseImage K V) :
    BaseImage.IsOverwrite p (l.foldl step p) (fun a b c => ∃ x ∈ l, region x a b c) value := by
  induction l generalizing p with
  | nil =>
    refine ⟨rfl, rfl, rfl, rfl, fun a b c => ⟨?_, fun _ => rfl⟩⟩
    rintro ⟨x, hx, _⟩
    cases hx
  | cons x xs ih =>
    rw [List.foldl_cons]
    have h1 := hstep p x (List.mem_cons_self _ _)
    have h2 := ih (fun q y hy => hstep q y (List.mem_cons_of_mem _ hy)) (step p x)
    obtain ⟨hX1, hY1, hZ1, hB1, hV1⟩ := h1
    obtain ⟨hX2, hY2, hZ2, hB2, hV2⟩ := h2
    refine ⟨hX2.trans hX1, hY2.trans hY1, hZ2.trans hZ1, hB2.trans hB1, fun a b c => ?_⟩
    by_cases hxs : ∃ y ∈ xs, region y a b c
    · constructor
      · intro _
        exact (hV2 a b c).1 hxs
      · intro hne
        obtain ⟨y, hy, hr⟩ := hxs
        exact absurd ⟨y, List.mem_cons_of_mem _ hy, hr⟩ hne
    · rw [(hV2 a b c).2 hxs]
      constructor
      · rintro ⟨y, hy, hr⟩
        rcases List.mem_cons.mp hy with rfl | hy
        · exact (hV1 a b c).1 hr
        · exact absurd ⟨y, hy, hr⟩ hxs
      · intro hne
        exact (hV1 a b c).2 (fun hr => hne ⟨x, List.mem_cons_self _ _, hr⟩)

theorem IsOverwrite_Put (p : BaseImage K V) (i j k : Int) (v : V)
    (value : Int → Int → Int → V) (hv : value i j k = v) :
    BaseImage.IsOverwrite p (p.Put i j k v) (fun a b c => a = i ∧ b = j ∧ c = k) value := by
  refine ⟨rfl, rfl, rfl, rfl, fun a b c => ⟨?_, ?_⟩⟩
  · rintro ⟨rfl, rfl, rfl⟩
    simp [BaseImage.Put, hv]
  · intro h
    simp [BaseImage.Put, h]

theorem IsOverwrite_copy_loops (p : BaseImage K V) (i1 j1 k1 i2 j2 k2 oi oj ok s : Int)
    (val : Int → Int → Int → V) :
    BaseImage.IsOverwrite p
      ((forRange k1 k2).foldl (fun q k =>
        (forRange j1 j2).foldl (fun q j =>
          (forRange i1 i2).foldl (fun (q : BaseImage K V) i =>
            q.Put (i - oi + s) (j - oj + s) (k - ok + s) (val i j k)) q) q) p)
      (fun a b c => (i1 ≤ a - s + oi ∧ a - s + oi ≤ i2) ∧ (j1 ≤ b - s + oj ∧ b - s + oj ≤ j2) ∧
        (k1 ≤ c - s + ok ∧ c - s + ok ≤ k2))
      (fun a b c => val (a - s + oi) (b - s + oj) (c - s + ok)) := by
  have h := IsOverwrite_foldl
    (fun q k =>
      (forRange j1 j2).foldl (fun q j =>
        (forRange i1 i2).foldl (fun (q : BaseImage K V) i =>
          q.Put (i - oi + s) (j - oj + s) (k - ok + s) (val i j k)) q) q)
    (fun k a b c => ∃ j ∈ forRange j1 j2, ∃ i ∈ forRange i1 i2,
      a = i - oi + s ∧ b = j - oj + s ∧ c = k - ok + s)
    (fun a b c => val (a - s + oi) (b - s + oj) (c - s + ok))
    (forRange k1 k2)
    (fun q k _ => IsOverwrite_foldl _
      (fun j a b c => ∃ i ∈ forRange i1 i2, a = i - oi + s ∧ b = j - oj + s ∧ c = k - ok + s)
      _ (forRange j1 j2)
      (fun q j _ => IsOverwrite_foldl _
        (fun i a b c => a = i - oi + s ∧ b = j - oj + s ∧ c = k - ok + s)
        _ (forRange i1 i2)
        (fun q i _ => IsOverwrite_Put q _ _ _ _ _ (by
          have e1 : i - oi + s - s + oi = i := by ring
          have e2 : j - oj + s - s + oj = j := by ring
          have e3 : k - ok + s - s + ok = k := by ring
          simp only [e1, e2, e3])) q) q) p
  obtain ⟨hX, hY, hZ, hB, hV⟩ := h
  refine ⟨hX, hY, hZ, hB, fun a b c => ?_⟩
  have hiff : ((i1 ≤ a - s + oi ∧ a - s + oi ≤ i2) ∧ (j1 ≤ b - s + oj ∧ b - s + oj ≤ j2) ∧
        (k1 ≤ c - s + ok ∧ c - s + ok ≤ k2)) ↔
      ∃ k ∈ forRange k1 k2, ∃ j ∈ forRange j1 j2, ∃ i ∈ forRange i1 i2,
        a = i - oi + s ∧ b = j - oj + s ∧ c = k - ok + s := by
    constructor
    · rintro ⟨ha, hb, hc⟩
      exact ⟨c - s + ok, (mem_forRange _ _ _).2 hc, b - s + oj,
        (mem_forRange _ _ _).2 hb, a - s + oi, (mem_forRange _ _ _).2 ha,
        by ring, by ring, by ring⟩
    · rintro ⟨k, hk, j, hj, i, hi, rfl, rfl, rfl⟩
      have hk' := (mem_forRange _ _ _).1 hk
      have hj' := (mem_forRange _ _ _).1 hj
      have hi' := (mem_forRange _ _ _).1 hi
      omega
  constructor
  · intro hr
    exact (hV a b c).1 (hiff.1 hr)
  · intro hr
    exact (hV a b c).2 (fun h => hr (hiff.2 h))

theorem IsOverwrite_congr (p R : BaseImage K V) (region region' : Int → Int → Int → Prop)
    (value value' : Int → Int → Int → V)
    (h : BaseImage.IsOverwrite p R region value)
    (hregion : ∀ a b c, region' a b c ↔ region a b c)
    (hvalue : ∀ a b c, region a b c → value a b c = value' a b c) :
    BaseImage.IsOverwrite p R region' value' := by
  obtain ⟨hX, hY, hZ, hB, hV⟩ := h
  refine ⟨hX, hY, hZ, hB, fun a b c => ⟨fun hr => ?_, fun hr => ?_⟩⟩
  · rw [(hV a b c).1 ((hregion a b c).1 hr)]
    exact hvalue a b c ((hregion a b c).1 hr)
  · exact (hV a b c).2 (fun h => hr ((hregion a b c).2 h))

theorem eq_of_IsOverwrite (p R : BaseImage K V) (region : Int → Int → Int → Prop)
    [∀ a b c, Decidable (region a b c)] (value : Int → Int → Int → V)
    (h : BaseImage.IsOverwrite p R region value) :
    R = { p with Voxel := fun a b c => if region a b c then value a b c else p.Voxel a b c } := by
  obtain ⟨hX, hY, hZ, hB, hV⟩ := h
  cases R
  cases p
  simp only at hX hY hZ hB hV
  subst hX hY hZ hB
  congr
  funext a b c
  by_cases hr : region a b c
  · rw [if_pos hr]
    exact (hV a b c).1 hr
  · rw [if_neg hr]
    exact (hV a b c).2 hr

end CloseLemmas

/-! ## Theorems about the closing of an image -/

section CloseTheorems
variable {K V C : Type} [Zero K] [Zero V]

/-- C17: `Close<TVoxel>` is dilation followed by erosion with the same number
of iterations and the same connectivity, applied to the image itself when the
foreground bounding box grown by `iterations` lies inside the image, and
otherwise to a copy of the bounding box region padded with `iterations` zeros
on each side, whose voxels are then copied back to the bounding box region
(the conversion of a voxel to `double` and back gives the voxel). -/
theorem Close_eq_CloseByDilationThenErosion (fn : ImageFunctions K V C)
    (image : BaseImage K V) (iterations : Int) (connectivity : C)
    (hcast : ∀ v, fn.ofDouble (fn.toDouble v) = v) :
    Close fn image iterations connectivity
      = CloseByDilationThenErosion fn image iterations connectivity := by
  unfold Close CloseByDilationThenErosion BaseImage.PutBackgroundValueAsDouble
  rcases hbb : fn.BoundingBox { image with BackgroundValue := some 0 }
    with ⟨i1, j1, k1, i2, j2, k2⟩
  simp only [hbb]
  by_cases hfit : 0 ≤ i1 - iterations ∧ i2 + iterations < image.X ∧
      0 ≤ j1 - iterations ∧ j2 + iterations < image.Y ∧
      0 ≤ k1 - iterations ∧ k2 + iterations < image.Z
  · have hnot : ¬ (i1 - iterations < 0 ∨ i2 + iterations ≥ image.X ∨
        j1 - iterations < 0 ∨ j2 + iterations ≥ image.Y ∨
        k1 - iterations < 0 ∨ k2 + iterations ≥ image.Z) := by omega
    rw [if_neg hnot, if_pos hfit]
  · have hyes : i1 - iterations < 0 ∨ i2 + iterations ≥ image.X ∨
        j1 - iterations < 0 ∨ j2 + iterations ≥ image.Y ∨
        k1 - iterations < 0 ∨ k2 + iterations ≥ image.Z := by omega
    rw [if_pos hyes, if_neg hfit]
    simp only [sub_add_cancel, add_sub_cancel_right]
    have hpad := eq_of_IsOverwrite _ _ _ _
      (IsOverwrite_congr _ _ _
        (fun a b c => (iterations ≤ a ∧ a ≤ iterations + (i2 - i1)) ∧
          (iterations ≤ b ∧ b ≤ iterations + (j2 - j1)) ∧
          (iterations ≤ c ∧ c ≤ iterations + (k2 - k1))) _
        (fun a b c => image.Voxel (a - iterations + i1) (b - iterations + j1)
          (c - iterations + k1))
        (IsOverwrite_copy_loops
          (GenericImage K V (i2 + iterations - (i1 - iterations) + 1)
            (j2 + iterations - (j1 - iterations) + 1) (k2 + iterations - (k1 - iterations) + 1))
          i1 j1 k1 i2 j2 k2 i1 j1 k1 iterations
          (fun i j k => fn.ofDouble (BaseImage.GetAsDouble fn
            { image with BackgroundValue := some 0 } i j k)))
        (fun a b c => by omega)
        (fun a b c _ => hcast _))
    have hdims : GenericImage K V (i2 + iterations - (i1 - iterations) + 1)
        (j2 + iterations - (j1 - iterations) + 1) (k2 + iterations - (k1 - iterations) + 1)
        = GenericImage K V (i2 - i1 + 1 + 2 * iterations) (j2 - j1 + 1 + 2 * iterations)
            (k2 - k1 + 1 + 2 * iterations) := by
      congr 1 <;> ring
    rw [hdims] at hpad
    rw [hdims, hpad]
    have hback := eq_of_IsOverwrite _ _ _ _
      (IsOverwrite_congr _ _ _
        (fun i j k => (i1 ≤ i ∧ i ≤ i2) ∧ (j1 ≤ j ∧ j ≤ j2) ∧ (k1 ≤ k ∧ k ≤ k2)) _
        (fun i j k => (fn.Erode (fn.Dilate
          { GenericImage K V (i2 - i1 + 1 + 2 * iterations) (j2 - j1 + 1 + 2 * iterations)
              (k2 - k1 + 1 + 2 * iterations) with
            Voxel := fun a b c =>
              if (iterations ≤ a ∧ a ≤ iterations + (i2 - i1)) ∧
                  (iterations ≤ b ∧ b ≤ iterations + (j2 - j1)) ∧
                  (iterations ≤ c ∧ c ≤ iterations + (k2 - k1)) then
                image.Voxel (a - iterations + i1) (b - iterations + j1) (c - iterations + k1)
              else (GenericImage K V (i2 - i1 + 1 + 2 * iterations)
                (j2 - j1 + 1 + 2 * iterations) (k2 - k1 + 1 + 2 * iterations)).Voxel a b c }
          iterations connectivity) iterations connectivity).Voxel
            (i - i1 + iterations) (j - j1 + iterations) (k - k1 + iterations))
        (IsOverwrite_copy_loops
          ({ image with BackgroundValue := some 0 } : BaseImage K V)
          i1 j1 k1 i2 j2 k2 0 0 0 0
          (fun i j k => fn.ofDouble (fn.toDouble ((fn.Erode (fn.Dilate
            { GenericImage K V (i2 - i1 + 1 + 2 * iterations) (j2 - j1 + 1 + 2 * iterations)
                (k2 - k1 + 1 + 2 * iterations) with
              Voxel := fun a b c =>
                if (iterations ≤ a ∧ a ≤ iterations + (i2 - i1)) ∧
                    (iterations ≤ b ∧ b ≤ iterations + (j2 - j1)) ∧
                    (iterations ≤ c ∧ c ≤ iterations + (k2 - k1)) then
                  image.Voxel (a - iterations + i1) (b - iterations + j1) (c - iterations + k1)
                else (GenericImage K V (i2 - i1 + 1 + 2 * iterations)
                  (j2 - j1 + 1 + 2 * iterations) (k2 - k1 + 1 + 2 * iterations)).Voxel a b c }
            iterations connectivity) iterations connectivity).Voxel
              (i - i1 + iterations) (j - j1 + iterations) (k - k1 + iterations)))))
        (fun a b c => by omega)
        (fun a b c _ => by
          simp only [sub_zero, add_zero]
          exact hcast _))
    simp only [sub_zero, add_zero] at hback
    exact hback

theorem Close_eq_CloseByDilationThenErosion_witness :
    (∀ v, RowFunctions.ofDouble (RowFunctions.toDouble v) = v) ∧
    Close RowFunctions RowImage 2 () = CloseByDilationThenErosion RowFunctions RowImage 2 () :=
  ⟨fun v => Int.floor_intCast v,
    Close_eq_CloseByDilationThenErosion RowFunctions RowImage 2 ()
      (fun v => Int.floor_intCast v)⟩

end CloseTheorems

/-! ## Free-form deformation -/

section FreeFormLemmas
set_option linter.unusedSectionVars false
variable {K : Type} [LinearOrderedField K]

theorem sum_map_mul_indicator {α : Type} [DecidableEq α] (f : α → K) (x0 : α) (t : K)
    (l : List α) (hl : l.Nodup) :
    (l.map (fun x => f x * (if x = x0 then t else 0))).sum
      = if x0 ∈ l then f x0 * t else 0 := by
  induction l with
  | nil => simp
  | cons x xs ih =>
    have hx : x ∉ xs := (List.nodup_cons.mp hl).1
    rw [List.map_cons, List.sum_cons, ih (List.nodup_cons.mp hl).2]
    by_cases hxx : x = x0
    · subst hxx
      simp [hx]
    · have hne : x0 ≠ x := fun h => hxx h.symm
      simp [hxx, hne]

theorem Jacobian_AddToDOF (ffd : BSplineFreeFormTransformation3D K)
    (controlPoints : List (Int × Int × Int)) (coefficient : Int × Int × Int → Int → K)
    (dof : Int) (t x y z : K) (r c : Int)
    (hnodup : controlPoints.Nodup)
    (hmem : ffd.IndexToLattice (ffd.DOFToIndex dof) ∈ controlPoints)
    (hr : 0 ≤ r ∧ r < 3) (hc : 0 ≤ c ∧ c < 3) :
    ffd.Jacobian controlPoints (ffd.AddToDOF coefficient dof t) x y z r c
      = ffd.Jacobian controlPoints coefficient x y z r c
        + t * (ffd.DerivativeOfJacobianWrtDOF dof x y z).Entry r c := by
  unfold BSplineFreeFormTransformation3D.Jacobian BSplineFreeFormTransformation3D.AddToDOF
    BSplineFreeFormTransformation3D.DerivativeOfJacobianWrtDOF
  by_cases hdim : r = ffd.DOFToDimension dof
  · have hfun : (fun cp : Int × Int × Int =>
        ffd.KernelDerivative c cp x y z *
          (if cp = ffd.IndexToLattice (ffd.DOFToIndex dof) ∧ r = ffd.DOFToDimension dof then
            coefficient cp r + t else coefficient cp r))
        = fun cp => ffd.KernelDerivative c cp x y z * coefficient cp r
            + ffd.KernelDerivative c cp x y z *
              (if cp = ffd.IndexToLattice (ffd.DOFToIndex dof) then t else 0) := by
      funext cp
      by_cases hcp : cp = ffd.IndexToLattice (ffd.DOFToIndex dof)
      · rw [if_pos ⟨hcp, hdim⟩, if_pos hcp]
        ring
      · rw [if_neg (fun h => hcp h.1), if_neg hcp]
        ring
    rw [hfun, List.sum_map_add, sum_map_mul_indicator _ _ _ _ hnodup, if_pos hmem]
    show _ = _ + t * (if (0 ≤ r ∧ r < 3) ∧ (0 ≤ c ∧ c < 3) ∧ r = ffd.DOFToDimension dof then
      ffd.KernelDerivative c (ffd.IndexToLattice (ffd.DOFToIndex dof)) x y z else 0)
    rw [if_pos ⟨hr, hc, hdim⟩]
    ring
  · have hfun : (fun cp : Int × Int × Int =>
        ffd.KernelDerivative c cp x y z *
          (if cp = ffd.IndexToLattice (ffd.DOFToIndex dof) ∧ r = ffd.DOFToDimension dof then
            coefficient cp r + t else coefficient cp r))
        = fun cp => ffd.KernelDerivative c cp x y z * coefficient cp r := by
      funext cp
      simp only [hdim, and_false, if_false]
    rw [hfun]
    show _ = _ + t * (if (0 ≤ r ∧ r < 3) ∧ (0 ≤ c ∧ c < 3) ∧ r = ffd.DOFToDimension dof then
      ffd.KernelDerivative c (ffd.IndexToLattice (ffd.DOFToIndex dof)) x y z else 0)
    rw [if_neg (fun h => hdim h.2.2)]
    ring

end FreeFormLemmas

/-! ## Theorems about the free-form deformation -/

section FreeFormTheorems

/-- C18, at parameter 0 (the first component of the control point at the
origin) and the lattice point (1/2, 1/2, 0) of a cubic B-spline
transformation: `EvaluateDerivativeOfJacobianWrtDOF` writes
`B_I(x) B(y) B(z)` = -115/576 to the three rows of column 0, whereas the
derivative of the Jacobian with respect to the parameter has the derivatives
of `B(x) B(y) B(z)` along the three axes in row 0 and zero elsewhere: entry
(1, 0) of the Jacobian does not depend on the parameter at all. -/
theorem EvaluateDerivativeOfJacobianWrtDOF_fills_column :
    ((ExampleFFD ℚ).EvaluateDerivativeOfJacobianWrtDOF 0 (1 / 2) (1 / 2) 0).Rows3x3
      = [[-115 / 576, 0, 0], [-115 / 576, 0, 0], [-115 / 576, 0, 0]] ∧
    ((ExampleFFD ℚ).DerivativeOfJacobianWrtDOF 0 (1 / 2) (1 / 2) 0).Rows3x3
      = [[-115 / 576, -115 / 576, 0], [0, 0, 0], [0, 0, 0]] ∧
    (∀ (coefficient : Int × Int × Int → Int → ℚ) (t : ℚ),
      (ExampleFFD ℚ).Jacobian ExampleControlPoints
          ((ExampleFFD ℚ).AddToDOF coefficient 0 t) (1 / 2) (1 / 2) 0 1 0
        = (ExampleFFD ℚ).Jacobian ExampleControlPoints coefficient (1 / 2) (1 / 2) 0 1 0) ∧
    (∀ (coefficient : Int × Int × Int → Int → ℚ) (t : ℚ),
      (ExampleFFD ℚ).Jacobian ExampleControlPoints
          ((ExampleFFD ℚ).AddToDOF coefficient 0 t) (1 / 2) (1 / 2) 0 0 1
        = (ExampleFFD ℚ).Jacobian ExampleControlPoints coefficient (1 / 2) (1 / 2) 0 0 1
          + t * (-115 / 576)) := by
  have habs : |(1 / 2 : ℚ)| = 1 / 2 := abs_of_nonneg (by norm_num)
  have hB0 : CubicBSpline ℚ 0 = 2 / 3 := by
    simp [CubicBSpline]
  have hB : CubicBSpline ℚ (1 / 2) = 23 / 48 := by
    unfold CubicBSpline
    rw [habs]
    norm_num
  have hBI : CubicBSplineDerivative ℚ (1 / 2) = -5 / 8 := by
    unfold CubicBSplineDerivative
    rw [habs]
    norm_num
  have hBI0 : CubicBSplineDerivative ℚ 0 = 0 := by
    simp [CubicBSplineDerivative]
  have hcode : ((ExampleFFD ℚ).EvaluateDerivativeOfJacobianWrtDOF 0 (1 / 2) (1 / 2) 0).Rows3x3
      = [[-115 / 576, 0, 0], [-115 / 576, 0, 0], [-115 / 576, 0, 0]] := by
    simp only [BSplineFreeFormTransformation3D.EvaluateDerivativeOfJacobianWrtDOF, ExampleFFD,
      Matrix.Rows3x3, Matrix.Put, Matrix.Initialize]
    norm_num [hB, hBI, hB0]
  have hwords : ((ExampleFFD ℚ).DerivativeOfJacobianWrtDOF 0 (1 / 2) (1 / 2) 0).Rows3x3
      = [[-115 / 576, -115 / 576, 0], [0, 0, 0], [0, 0, 0]] := by
    simp only [BSplineFreeFormTransformation3D.DerivativeOfJacobianWrtDOF, ExampleFFD,
      Matrix.Rows3x3, BSplineFreeFormTransformation3D.KernelDerivative]
    norm_num [hB, hBI, hB0, hBI0]
  refine ⟨hcode, hwords, ?_, ?_⟩
  · intro coefficient t
    rw [Jacobian_AddToDOF (ExampleFFD ℚ) ExampleControlPoints coefficient 0 t (1 / 2) (1 / 2) 0
      1 0 (by decide) (by decide) (by decide) (by decide)]
    have h10 : ((ExampleFFD ℚ).DerivativeOfJacobianWrtDOF 0 (1 / 2) (1 / 2) 0).Entry 1 0 = 0 := by
      simp [BSplineFreeFormTransformation3D.DerivativeOfJacobianWrtDOF, ExampleFFD]
    rw [h10]
    ring
  · intro coefficient t
    rw [Jacobian_AddToDOF (ExampleFFD ℚ) ExampleControlPoints coefficient 0 t (1 / 2) (1 / 2) 0
      0 1 (by decide) (by decide) (by decide) (by decide)]
    have h01 : ((ExampleFFD ℚ).DerivativeOfJacobianWrtDOF 0 (1 / 2) (1 / 2) 0).Entry 0 1
        = -115 / 576 := by
      simp only [BSplineFreeFormTransformation3D.DerivativeOfJacobianWrtDOF, ExampleFFD,
        BSplineFreeFormTransformation3D.KernelDerivative]
      norm_num [hB, hBI, hB0, hBI0]
    rw [h01]

end FreeFormTheorems

/-! ## Registration energy: value and update -/

section EnergyValueLemmas
set_option linter.unusedSectionVars false
variable {K S : Type} [LinearOrderedField K]

theorem ValueLoop_of_no_NaN (m : ValueFunctions K S) (l : List (EnergyTerm K S)) (i : Nat)
    (sum : K) (h : ∀ t ∈ l, t.Weight ≠ 0 → (m.Value t).1 ≠ none) :
    ValueLoop m i l sum
      = Except.ok
          (((l.filter (fun t => decide (t.Weight ≠ 0))).map
              (fun t => (m.Value t).1.getD 0)).foldl (fun sum value => sum + value) sum,
            l.map (fun t => if t.Weight ≠ 0 then (m.Value t).2 else t)) := by
  induction l generalizing i sum with
  | nil => rfl
  | cons t ts ih =>
    have hts : ∀ u ∈ ts, u.Weight ≠ 0 → (m.Value u).1 ≠ none :=
      fun u hu => h u (List.mem_cons_of_mem _ hu)
    unfold ValueLoop
    by_cases hw : t.Weight = 0
    · simp only [hw, ne_eq, not_true_eq_false, if_false, ih (i + 1) (sum + 0) hts]
      simp [List.filter_cons, hw, Except.map]
    · obtain ⟨value, hvalue⟩ := Option.ne_none_iff_exists'.mp (h t (List.mem_cons_self _ _) hw)
      simp only [ne_eq, hw, not_false_eq_true, if_true, hvalue, ih (i + 1) (sum + value) hts]
      simp [List.filter_cons, hw, hvalue, Except.map]

theorem ValueLoop_of_NaN (m : ValueFunctions K S) (l : List (EnergyTerm K S)) (i : Nat)
    (sum : K) (h : ∃ t ∈ l, t.Weight ≠ 0 ∧ (m.Value t).1 = none) :
    ∃ name, ValueLoop m i l sum
      = Except.error ⟨1, "RegistrationEnergy::Value: Value of term " ++ name ++ " is NaN!"⟩ := by
  induction l generalizing i sum with
  | nil =>
    obtain ⟨t, ht, _⟩ := h
    cases ht
  | cons t ts ih =>
    unfold ValueLoop
    by_cases hw : t.Weight = 0
    · have hts : ∃ u ∈ ts, u.Weight ≠ 0 ∧ (m.Value u).1 = none := by
        obtain ⟨u, hu, huw, hun⟩ := h
        rcases List.mem_cons.mp hu with rfl | hu
        · exact absurd hw huw
        · exact ⟨u, hu, huw, hun⟩
      obtain ⟨name, hname⟩ := ih (i + 1) (sum + 0) hts
      refine ⟨name, ?_⟩
      simp only [hw, ne_eq, not_true_eq_false, if_false, hname]
      rfl
    · cases hvalue : (m.Value t).1 with
      | none =>
        refine ⟨if (m.Name (m.Value t).2).isEmpty then toString (i + 1)
          else m.Name (m.Value t).2, ?_⟩
        simp only [ne_eq, hw, not_false_eq_true, if_true, hvalue]
      | some value =>
        have hts : ∃ u ∈ ts, u.Weight ≠ 0 ∧ (m.Value u).1 = none := by
          obtain ⟨u, hu, huw, hun⟩ := h
          rcases List.mem_cons.mp hu with rfl | hu
          · rw [hvalue] at hun
            cases hun
          · exact ⟨u, hu, huw, hun⟩
        obtain ⟨name, hname⟩ := ih (i + 1) (sum + value) hts
        refine ⟨name, ?_⟩
        simp only [ne_eq, hw, not_false_eq_true, if_true, hvalue, hname]
        rfl

theorem NumberOfActiveTerms_fold (l : List (EnergyTerm K S)) (n : Int) (h0 : 0 ≤ n)
    (hn : n + l.length ≤ 2147483647) :
    l.foldl (fun nactive t => if t.Weight ≠ 0 then addInt nactive 1 else nactive) n
      = n + ((l.filter (fun t => decide (t.Weight ≠ 0))).length : Int) := by
  induction l generalizing n with
  | nil => simp
  | cons t ts ih =>
    simp only [List.length_cons, Nat.cast_add, Nat.cast_one] at hn
    rw [List.foldl_cons]
    by_cases hw : t.Weight = 0
    · simp only [hw, ne_eq, not_true_eq_false, if_false]
      rw [ih n h0 (by omega)]
      simp [List.filter_cons, hw]
    · have hadd : addInt n 1 = n + 1 := by
        apply addInt_one_of_IsInt
        unfold IsInt INT_MIN INT_MAX
        constructor <;> omega
      simp only [ne_eq, hw, not_false_eq_true, if_true, hadd]
      rw [ih (n + 1) (by omega) (by omega)]
      simp [List.filter_cons, hw]
      ring

theorem Value_of_MixedTerms :
    ((ExampleEnergy ℚ false (MixedTerms ℚ)).Value (ExampleValueFunctions ℚ)).map
        (fun r => (r.1, r.2.Term.map (fun t => (t.Weight, t.State))))
      = Except.ok (14, [(0, 5), (1, 101), (2, 103), (1, 107)]) := by
  simp [RegistrationEnergy.Value, ExampleEnergy, MixedTerms, ExampleValueFunctions, ValueLoop,
    Except.map]
  norm_num

theorem Value_of_TermsWithNaN :
    ((ExampleEnergy ℚ false (TermsWithNaN ℚ)).Value (ExampleValueFunctions ℚ)).map
        (fun r => r.1)
      = Except.error ⟨1, "RegistrationEnergy::Value: Value of term 3 is NaN!"⟩ := by
  have h3 : ¬ ((3 : ℚ) < 0) := by norm_num
  simp [RegistrationEnergy.Value, ExampleEnergy, TermsWithNaN, ExampleValueFunctions, ValueLoop,
    Except.map, h3]
  decide

theorem Update_of_MixedTerms :
    ((ExampleEnergy ℚ false (MixedTerms ℚ)).Update (CountingEnergyFunctions ℚ) true).Term.map
        (fun t => (t.Weight, t.State))
      = [(0, 5), (1, 12), (2, 14), (1, 18)] ∧
    ((ExampleEnergy ℚ false (MixedTerms ℚ)).Update (CountingEnergyFunctions ℚ) false).Term.map
        (fun t => (t.Weight, t.State))
      = [(0, 5), (1, 1), (2, 3), (1, 7)] := by
  constructor
  · simp [RegistrationEnergy.Update, ExampleEnergy, MixedTerms, CountingEnergyFunctions,
      ExampleEnergyFunctions]
    norm_num
  · simp [RegistrationEnergy.Update, ExampleEnergy, MixedTerms, CountingEnergyFunctions,
      ExampleEnergyFunctions]

end EnergyValueLemmas

/-! ## Theorems about the value and the update of the registration energy -/

section EnergyValueTheorems
set_option linter.unusedSectionVars false
variable {K S : Type} [LinearOrderedField K]

/-- C21: if no term with non-zero weight has the value NaN, `Value()` returns
the sum in term order of `Value()` of the terms with non-zero weight, which
are the only terms evaluated (a term with zero weight is left as it is and
contributes zero) and of which there are `NumberOfActiveTerms`; an empty list
gives 0; and if the value of some term with non-zero weight is NaN, the
process exits with status 1 and the message "Value of term ... is NaN!". -/
theorem Value_eq_sum_of_active_terms (m : ValueFunctions K S) (E : RegistrationEnergy K S) :
    ((∀ t ∈ E.Term, t.Weight ≠ 0 → (m.Value t).1 ≠ none) →
      E.Value m = Except.ok (E.SumOfValues m,
        { E with Term := E.Term.map (fun t => if t.Weight ≠ 0 then (m.Value t).2 else t) })) ∧
    (E.Term = [] → E.Value m = Except.ok (0, E)) ∧
    ((∃ t ∈ E.Term, t.Weight ≠ 0 ∧ (m.Value t).1 = none) →
      ∃ name, E.Value m = Except.error
        ⟨1, "RegistrationEnergy::Value: Value of term " ++ name ++ " is NaN!"⟩) ∧
    (IsInt E.Term.length → E.NumberOfActiveTerms = E.ActiveTerms.length) := by
  refine ⟨?_, ?_, ?_, ?_⟩
  · intro h
    unfold RegistrationEnergy.Value RegistrationEnergy.SumOfValues
      RegistrationEnergy.ActiveTerms
    rw [ValueLoop_of_no_NaN m E.Term 0 0 h]
    rfl
  · intro h
    cases E with
    | mk Term c n a g p s =>
      simp only at h
      subst h
      rfl
  · intro h
    obtain ⟨name, hname⟩ := ValueLoop_of_NaN m E.Term 0 0 h
    refine ⟨name, ?_⟩
    unfold RegistrationEnergy.Value
    rw [hname]
    rfl
  · intro h
    unfold RegistrationEnergy.NumberOfActiveTerms RegistrationEnergy.ActiveTerms
    rw [NumberOfActiveTerms_fold E.Term 0 le_rfl (by
      unfold IsInt INT_MAX at h
      have := h.2
      omega)]
    simp

/-- C22: `Update(gradient)`, after the call of `_PreUpdateFunction` if one is
set: if the transformation is marked changed or `gradient` is true, every term
with non-zero weight is replaced by the term after `Update(gradient)` and then
`ResetValue()`, every term with zero weight is left as it is, and the
transformation is marked unchanged; if the transformation is not marked
changed and `gradient` is false, nothing changes and the flag stays false.  In
both cases a term with zero weight is left as it is. -/
theorem Update_updates_terms_with_weight (m : EnergyFunctions K S) (gradient : Bool)
    (E : RegistrationEnergy K S) :
    ((E.PreUpdate m gradient).TransformationChanged = true ∨ gradient = true →
      E.Update m gradient =
        { E.PreUpdate m gradient with
          Term := (E.PreUpdate m gradient).Term.map (fun t =>
            if t.Weight ≠ 0 then m.ResetValue (m.Update gradient t) else t)
          TransformationChanged := false } ∧
      (E.Update m gradient).Term.length = (E.PreUpdate m gradient).Term.length ∧
      (∀ i t, (E.PreUpdate m gradient).Term.get? i = some t → t.Weight ≠ 0 →
        (E.Update m gradient).Term.get? i = some (m.ResetValue (m.Update gradient t)))) ∧
    ((E.PreUpdate m gradient).TransformationChanged = false ∧ gradient = false →
      E.Update m gradient = E.PreUpdate m gradient ∧
      (E.Update m gradient).TransformationChanged = false) ∧
    (∀ i t, (E.PreUpdate m gradient).Term.get? i = some t → t.Weight = 0 →
      (E.Update m gradient).Term.get? i = some t) ∧
    (m.PreUpdateFunction = none → E.PreUpdate m gradient = E) := by
  have hdef : E.Update m gradient =
      if ((E.PreUpdate m gradient).TransformationChanged || gradient) = true then
        { E.PreUpdate m gradient with
          Term := (E.PreUpdate m gradient).Term.map (fun t =>
            if t.Weight ≠ 0 then m.ResetValue (m.Update gradient t) else t)
          TransformationChanged := false }
      else E.PreUpdate m gradient := rfl
  refine ⟨?_, ?_, ?_, ?_⟩
  · intro h
    have hor : ((E.PreUpdate m gradient).TransformationChanged || gradient) = true := by
      rcases h with h | h <;> simp [h]
    rw [hdef, if_pos hor]
    refine ⟨rfl, by simp, ?_⟩
    intro i t hi hw
    simp only [List.get?_eq_getElem?, List.getElem?_map] at hi ⊢
    rw [hi]
    simp [hw]
  · rintro ⟨hc, hg⟩
    have hor : ¬ ((E.PreUpdate m gradient).TransformationChanged || gradient) = true := by
      rw [hc, hg]
      decide
    rw [hdef, if_neg hor]
    exact ⟨rfl, hc⟩
  · intro i t hi hw
    rw [hdef]
    split
    · simp only [List.get?_eq_getElem?, List.getElem?_map] at hi ⊢
      rw [hi]
      simp [hw]
    · exact hi
  · intro h
    unfold RegistrationEnergy.PreUpdate
    rw [h]

end EnergyValueTheorems

end mirtk
